import Mathlib

/-!
Verification of the particle-system core of nodes/masks/mask_base.py
(class ParticleSystemMaskBase).

Python float arithmetic is modelled with real numbers.  Bookkeeping
quantities that drive control flow — simulation times, emission rates,
the per-emitter fractional accumulators and the particle counters — are
modelled with rationals, so the comparisons the code branches on stay
decidable.

Semantics of the pymunk primitives the code calls are embedded next to
their call sites, following the pymunk sources:
 - Vec2d.normalized returns the vector divided by its length, and the
   zero vector when the length is 0;
 - Vec2d.perpendicular_normal returns (-y/len, x/len), and the vector
   itself (hence zero) when the length is 0;
 - Body.apply_force_at_world_point accumulates into the body force;
 - Space.step(dt) integrates every dynamic body (mass 1, damping 1):
   velocity += (gravity + force) * dt, position += velocity * dt, force
   reset, and records dt;
 - Space.current_time_step is the dt of the most recent step call (0
   before any step) — it is NOT an accumulated clock.  A ghost field
   clock accumulates the true elapsed simulation time so that ages can
   be stated; the code itself never reads it.

The cv2 contour extraction used by update_mask_boundary and the
subclass hook process_single_mask are external to the embedded core and
are passed as parameters (a segment list per mask, and an arbitrary
frame-processing function).  The values produced by random.uniform are
supplied by an oracle stream carried in the world state.
-/

namespace ParticleSim

open scoped Classical

/-- 2D vector, modelling pymunk Vec2d. -/
@[ext]
structure Vec2 where
  x : ℝ
  y : ℝ

instance : Zero Vec2 := ⟨⟨0, 0⟩⟩
instance : Add Vec2 := ⟨fun a b => ⟨a.x + b.x, a.y + b.y⟩⟩
instance : Sub Vec2 := ⟨fun a b => ⟨a.x - b.x, a.y - b.y⟩⟩
instance : Neg Vec2 := ⟨fun a => ⟨-a.x, -a.y⟩⟩
instance : SMul ℝ Vec2 := ⟨fun c a => ⟨c * a.x, c * a.y⟩⟩

/-- Dot product of two vectors. -/
def dot (a b : Vec2) : ℝ := a.x * b.x + a.y * b.y

/-- 2D cross product (signed area). -/
def cross (a b : Vec2) : ℝ := a.x * b.y - a.y * b.x

/-- pymunk Vec2d.length. -/
noncomputable def len (a : Vec2) : ℝ := Real.sqrt (a.x ^ 2 + a.y ^ 2)

/-- pymunk Vec2d.normalized: the vector divided by its length, or the
zero vector when the length is 0. -/
noncomputable def normalized (a : Vec2) : Vec2 :=
  if len a = 0 then ⟨0, 0⟩ else ⟨a.x / len a, a.y / len a⟩

/-- pymunk Vec2d.perpendicular_normal: (-y/len, x/len), or the vector
itself (which is then zero) when the length is 0. -/
noncomputable def perpendicularNormal (a : Vec2) : Vec2 :=
  if len a = 0 then ⟨a.x, a.y⟩ else ⟨-a.y / len a, a.x / len a⟩

/-- Sum of a list of vectors. -/
def sumVec (l : List Vec2) : Vec2 := l.foldr (· + ·) 0

/-- The ccw helper inside line_segment_intersect (mask_base.py lines
461-462): (C.y-A.y)*(B.x-A.x) > (B.y-A.y)*(C.x-A.x), a strict
orientation test. -/
def ccwProp (A B C : Vec2) : Prop :=
  (C.y - A.y) * (B.x - A.x) > (B.y - A.y) * (C.x - A.x)

/-- line_segment_intersect (mask_base.py lines 460-464):
ccw(p1,p3,p4) != ccw(p2,p3,p4) and ccw(p1,p2,p3) != ccw(p1,p2,p4). -/
def lineSegmentIntersect (p1 p2 p3 p4 : Vec2) : Prop :=
  ¬(ccwProp p1 p3 p4 ↔ ccwProp p2 p3 p4) ∧ ¬(ccwProp p1 p2 p3 ↔ ccwProp p1 p2 p4)

/-- One boundary edge (pymunk Segment endpoints a, b) produced by
update_mask_boundary from a simplified mask contour. -/
structure Segment where
  a : Vec2
  b : Vec2

/-- A particle: a pymunk Body of mass 1 with the extra attributes
emit_particle sets on it.  force is the pymunk body force accumulator.
creation_time and lifetime are the rational-time bookkeeping fields. -/
structure Particle where
  position : Vec2
  velocity : Vec2
  force : Vec2
  creationTime : ℚ
  lifetime : ℚ
  size : ℝ
  color : ℚ × ℚ × ℚ

/-- The creation-time/lifetime data of a particle, used to state what
the culling step keeps. -/
def lifeData (p : Particle) : ℚ × ℚ := (p.creationTime, p.lifetime)

/-- Gravity-well polarity ('attract' or 'repel'). -/
inductive WellKind where
  | attract
  | repel
deriving DecidableEq

/-- A gravity well as built by initialize_gravity_wells. -/
structure Well where
  position : Vec2
  strength : ℝ
  radius : ℝ
  kind : WellKind

/-- The force contributed by one well to a particle at pos, i.e. the
body of the loop in apply_gravity_well_force (mask_base.py lines
272-282): for distance < radius the force is
strength * (1 - distance/radius) * well_strength_multiplier along the
normalized offset (negated for repel); otherwise no force is applied
(modelled as the zero vector). -/
noncomputable def wellForce (mult : ℝ) (w : Well) (pos : Vec2) : Vec2 :=
  let offset := w.position - pos
  let distance := len offset
  if distance < w.radius then
    let forceMagnitude := w.strength * (1 - distance / w.radius) * mult
    let forceDirection :=
      match w.kind with
      | .repel => -(normalized offset)
      | .attract => normalized offset
    forceMagnitude • forceDirection
  else 0

/-- apply_gravity_well_force: each well in turn applies its force at the
particle position; pymunk apply_force_at_world_point accumulates into
the body force. -/
noncomputable def applyGravityWellForce (mult : ℝ) : List Well → Particle → Particle
  | [], p => p
  | w :: rest, p =>
      applyGravityWellForce mult rest
        { p with force := p.force + wellForce mult w p.position }

/-- A vortex as built by initialize_vortices (its drift velocity is
part of its state). -/
structure Vortex where
  position : Vec2
  velocity : Vec2
  strength : ℝ
  radius : ℝ
  inwardFactor : ℝ

/-- update_vortices loop body (mask_base.py lines 379-386): advance the
position by velocity * dt, then negate a velocity component when the
new position lies strictly outside [0, width] resp. [0, height]. -/
noncomputable def updateVortex (width height dt : ℝ) (v : Vortex) : Vortex :=
  let pos := v.position + dt • v.velocity
  let vx := if pos.x < 0 ∨ pos.x > width then -v.velocity.x else v.velocity.x
  let vy := if pos.y < 0 ∨ pos.y > height then -v.velocity.y else v.velocity.y
  { v with position := pos, velocity := ⟨vx, vy⟩ }

/-- update_vortices (mask_base.py lines 379-386). -/
noncomputable def updateVortices (width height dt : ℝ) (vs : List Vortex) : List Vortex :=
  vs.map (updateVortex width height dt)

/-- The velocity one vortex assigns to a particle at pos, i.e. the body
of the loop in apply_vortex_force (mask_base.py lines 388-406):
tangent * strength * (distance/radius) + radial * strength * inward. -/
noncomputable def vortexVelocity (v : Vortex) (pos : Vec2) : Vec2 :=
  let offset := pos - v.position
  let distance := len offset
  let tangent := normalized ⟨-offset.y, offset.x⟩
  let radial := -(normalized offset)
  (v.strength * (distance / v.radius)) • tangent +
    (v.strength * v.inwardFactor) • radial

/-- apply_vortex_force: each vortex whose radius covers the particle
ASSIGNS the particle velocity (it does not accumulate), so a later
in-range vortex overwrites an earlier one. -/
noncomputable def applyVortexForce : List Vortex → Particle → Particle
  | [], p => p
  | v :: rest, p =>
      applyVortexForce rest
        (if len (p.position - v.position) < v.radius then
          { p with velocity := vortexVelocity v p.position }
        else p)

/-- The collision response of check_particle_mask_collision
(mask_base.py lines 446-457) for the segment found to intersect:
reflect the velocity about the segment normal, scale by 0.9, and set
the position to old_pos + normal * (penetration + size/2 + 1). -/
noncomputable def collide (p : Particle) (oldPos newPos : Vec2) (s : Segment) : Particle :=
  let segmentVec := s.b - s.a
  let normal := perpendicularNormal segmentVec
  let v := p.velocity
  let reflection := v - (2 * dot v normal) • normal
  let penetrationDepth := dot (newPos - oldPos) normal
  { p with
    velocity := (0.9 : ℝ) • reflection,
    position := oldPos + (penetrationDepth + p.size / 2 + 1) • normal }

/-- check_particle_mask_collision (mask_base.py lines 443-458): scan the
boundary segments in order and apply the collision response for the
first segment the motion segment intersects (then break). -/
noncomputable def checkParticleMaskCollision (p : Particle) (oldPos newPos : Vec2) :
    List Segment → Particle
  | [] => p
  | s :: rest =>
      if lineSegmentIntersect oldPos newPos s.a s.b then collide p oldPos newPos s
      else checkParticleMaskCollision p oldPos newPos rest

/-- The per-particle body of the "Update particle positions" loop in
update_particle_system (mask_base.py lines 429-436): apply vortex and
well forces, integrate new_pos = old_pos + velocity * sub_dt, run the
collision check when the boundary is respected, and then assign
particle.position = new_pos — note that this final assignment happens
unconditionally, after the collision check. -/
noncomputable def particleMotionStep (respect : Bool) (segs : List Segment)
    (vortices : List Vortex) (wells : List Well) (mult : ℝ) (subDt : ℚ)
    (p : Particle) : Particle :=
  let p1 := applyVortexForce vortices p
  let p2 := applyGravityWellForce mult wells p1
  let oldPos := p2.position
  let newPos := oldPos + (subDt : ℝ) • p2.velocity
  let p3 := if respect then checkParticleMaskCollision p2 oldPos newPos segs else p2
  { p3 with position := newPos }

/-- pymunk Space.step(dt) restricted to one dynamic body of mass 1 with
default damping: velocity += (gravity + force) * dt, position +=
velocity * dt (with the updated velocity), and the force accumulator is
reset. -/
noncomputable def spaceStepBody (gravity : Vec2) (subDt : ℚ) (p : Particle) : Particle :=
  let v := p.velocity + (subDt : ℝ) • (gravity + p.force)
  { p with velocity := v, position := p.position + (subDt : ℝ) • v, force := 0 }

/-- An emitter descriptor (the dict fields emit_particle and
update_particle_system read, with the color already converted). -/
structure Emitter where
  emitterX : ℚ
  emitterY : ℚ
  particleDirection : ℝ
  particleSpread : ℝ
  particleSpeed : ℝ
  particleSize : ℝ
  color : ℚ × ℚ × ℚ
  emissionRate : ℚ
  initialPlume : ℚ

/-- The mutable state of ParticleSystemMaskBase plus the pymunk space
state the code observes.  spaceCurrDt models Space.current_time_step;
clock is the ghost accumulated simulation time; rng/rngIdx supply the
values drawn by random.uniform in emit_particle. -/
structure World where
  particles : List Particle
  particlesToEmit : List ℚ
  totalParticlesEmitted : ℕ
  maxParticles : ℕ
  particleLifetime : ℚ
  emitters : List Emitter
  vortices : List Vortex
  gravityWells : List Well
  wellStrengthMultiplier : ℝ
  spaceGravity : Vec2
  maskShapes : List Segment
  spaceCurrDt : ℚ
  clock : ℚ
  rng : ℕ → ℝ
  rngIdx : ℕ

/-- The particle built by emit_particle (mask_base.py lines 466-495):
position at the emitter, velocity speed * (cos angle, sin angle) for
the sampled angle, creation_time = Space.current_time_step, lifetime
and size/color from the configuration. -/
noncomputable def emittedParticle (em : Emitter) (height width : ℚ) (w : World) : Particle :=
  let angle := w.rng w.rngIdx
  { position := ⟨((em.emitterX * width : ℚ) : ℝ), ((em.emitterY * height : ℚ) : ℝ)⟩
    velocity := em.particleSpeed • (⟨Real.cos angle, Real.sin angle⟩ : Vec2)
    force := 0
    creationTime := w.spaceCurrDt
    lifetime := w.particleLifetime
    size := em.particleSize
    color := em.color }

/-- emit_particle: append the new particle (space.add + particles
list), count it, and consume one random draw. -/
noncomputable def emitParticle (em : Emitter) (height width : ℚ) (w : World) : World :=
  { w with
    particles := w.particles ++ [emittedParticle em height width w]
    totalParticlesEmitted := w.totalParticlesEmitted + 1
    rngIdx := w.rngIdx + 1 }

/-- The while loop of update_particle_system (mask_base.py lines
424-426): while the accumulator is at least 1 and the run-wide cap is
not reached, emit one particle and decrement the accumulator. -/
noncomputable def emitLoop (em : Emitter) (height width : ℚ) (acc : ℚ) (w : World) :
    ℚ × World :=
  if h : 1 ≤ acc ∧ w.totalParticlesEmitted < w.maxParticles then
    emitLoop em height width (acc - 1) (emitParticle em height width w)
  else (acc, w)
termination_by (⌊acc⌋).toNat
decreasing_by
  have h1 : (1 : ℤ) ≤ ⌊acc⌋ := by
    have := h.1
    exact_mod_cast Int.le_floor.mpr (by exact_mod_cast this)
  have h2 : ⌊acc - 1⌋ = ⌊acc⌋ - 1 := by
    have h3 := Int.floor_sub_int acc 1
    simp only [Int.cast_one] at h3
    exact h3
  omega

/-- The per-sub-step emission pass (mask_base.py lines 422-426): for
each emitter, add emission_rate * sub_dt to its accumulator and run the
emission while loop; returns the new accumulator list and world. -/
noncomputable def emitAll (height width subDt : ℚ) :
    List Emitter → List ℚ → World → List ℚ × World
  | [], _, w => ([], w)
  | _ :: _, [], w => ([], w)
  | em :: ems, acc :: accs, w =>
      let r := emitLoop em height width (acc + em.emissionRate * subDt) w
      let rest := emitAll height width subDt ems accs r.2
      (r.1 :: rest.1, rest.2)

/-- One sub-step of update_particle_system (mask_base.py lines
420-438): emission, then the particle position-update loop, then
space.step(sub_dt) (which also advances every body and records sub_dt
as current_time_step; the ghost clock accumulates). -/
noncomputable def subStep (height width : ℚ) (respect : Bool) (subDt : ℚ)
    (w : World) : World :=
  let e := emitAll height width subDt w.emitters w.particlesToEmit w
  let w1 := { e.2 with particlesToEmit := e.1 }
  let w2 :=
    { w1 with
      particles := w1.particles.map
        (particleMotionStep respect w1.maskShapes w1.vortices w1.gravityWells
          w1.wellStrengthMultiplier subDt) }
  { w2 with
    particles := w2.particles.map (spaceStepBody w2.spaceGravity subDt)
    spaceCurrDt := subDt
    clock := w2.clock + subDt }

/-- update_particle_system (mask_base.py lines 411-441): refresh the
boundary segments when the boundary is respected (the cv2 extraction is
passed in as segs), advance the vortices once with the full frame dt,
run 5 sub-steps of dt/5, and finally cull with
current_time - p.creation_time < p.lifetime where current_time is
Space.current_time_step. -/
noncomputable def updateParticleSystem (dt height width : ℚ) (segs : List Segment)
    (respect : Bool) (w : World) : World :=
  let w0 := if respect then { w with maskShapes := segs } else w
  let w1 := { w0 with vortices := updateVortices (width : ℝ) (height : ℝ) ((dt : ℚ) : ℝ) w0.vortices }
  let subDt := dt / 5
  let w2 := (subStep height width respect subDt)^[5] w1
  { w2 with
    particles := w2.particles.filter
      (fun p => decide (w2.spaceCurrDt - p.creationTime < p.lifetime)) }

/-- A sequence of frame updates, each with its dt, boundary segments
and boundary-respect flag. -/
noncomputable def runUpdates (height width : ℚ) :
    List (ℚ × List Segment × Bool) → World → World
  | [], w => w
  | u :: us, w =>
      runUpdates height width us (updateParticleSystem u.1 height width u.2.1 u.2.2 w)

/-- setup_particle_system (mask_base.py lines 316-356) together with
the initialize() reset that main_function performs first: fresh
counters and collections, the configured emitters/fields stored, and
per emitter an initial plume of
int(max_particles * initial_plume / len(emitters)) particles emitted
(bypassing both the accumulator and the cap). -/
noncomputable def setupParticleSystem (width height : ℚ) (ems : List Emitter)
    (particleCount : ℕ) (lifetime : ℚ) (wind gravity : ℝ)
    (vortices : List Vortex) (wells : List Well) (mult : ℝ)
    (rng : ℕ → ℝ) : World :=
  let w0 : World :=
    { particles := []
      particlesToEmit := List.replicate ems.length 0
      totalParticlesEmitted := 0
      maxParticles := particleCount
      particleLifetime := lifetime
      emitters := ems
      vortices := vortices
      gravityWells := wells
      wellStrengthMultiplier := mult
      spaceGravity := ⟨wind, gravity⟩
      maskShapes := []
      spaceCurrDt := 0
      clock := 0
      rng := rng
      rngIdx := 0 }
  ems.foldl
    (fun w em =>
      (emitParticle em height width)^[(⌊(particleCount : ℚ) * em.initialPlume / (ems.length : ℚ)⌋).toNat] w)
    w0

/-- np.stack([mask] * 3, axis=-1): the three-channel duplicate of a
mask used as the image for out-of-range frames. -/
def stack3 {M : Type} (m : M) : M × M × M := (m, m, m)

/-- The effective end frame of process_mask:
end_frame if end_frame > 0 else num_frames. -/
def effectiveEnd (endFrame numFrames : ℕ) : ℕ :=
  if 0 < endFrame then endFrame else numFrames

/-- The per-frame loop of process_mask (mask_base.py lines 300-308):
frames outside [start_frame, end_frame) are passed through (mask
unchanged, image = three-channel stack) without touching the world;
in-range frames run update_particle_system with dt = 1/30 and then the
subclass hook process_single_mask (passed in as psm, reading the
updated world). -/
noncomputable def processFrames {M : Type} (startFrame endFrameEff : ℕ) (respect : Bool)
    (height width : ℚ) (extract : M → List Segment)
    (psm : World → M → ℕ → M × (M × M × M)) :
    ℕ → List M → World → List M × List (M × M × M) × World
  | _, [], w => ([], [], w)
  | i, m :: ms, w =>
      if i < startFrame ∨ endFrameEff ≤ i then
        let r := processFrames startFrame endFrameEff respect height width extract psm
          (i + 1) ms w
        (m :: r.1, stack3 m :: r.2.1, r.2.2)
      else
        let w1 := updateParticleSystem (1 / 30) height width (extract m) respect w
        let pr := psm w1 m i
        let r := processFrames startFrame endFrameEff respect height width extract psm
          (i + 1) ms w1
        (pr.1 :: r.1, pr.2 :: r.2.1, r.2.2)

/-- Modelled from the spec, for comparison with the code in claim C8:
"each vortex's own position advances by its own velocity × dt each
sub-step", i.e. the drift applied at every one of the 5 sub-steps of
duration dt/5, with the same bounce rule. -/
noncomputable def updateVortexSubstepped (width height dt : ℝ) (v : Vortex) : Vortex :=
  (updateVortex width height (dt / 5))^[5] v

/-- 1D bounce invariant used for the vortex-drift boundedness proof:
speed preserved, position within c*dt of [0, bound], and when outside
the velocity points back in. -/
def BInv (bound dt c x vel : ℝ) : Prop :=
  |vel| = c ∧ -(c * dt) ≤ x ∧ x ≤ bound + c * dt ∧
    (bound < x → vel < 0) ∧ (x < 0 → 0 < vel)

/-- Emitter used for the C1 run: full initial plume, zero emission
rate. -/
def em0 : Emitter :=
  { emitterX := 1/2, emitterY := 1/2, particleDirection := 0, particleSpread := 0,
    particleSpeed := 10, particleSize := 2, color := (1, 1, 1),
    emissionRate := 0, initialPlume := 1 }

/-- C1 run configuration: one emitter, max 1 particle, lifetime 0.1 s. -/
noncomputable def setupC1 : World :=
  setupParticleSystem 100 100 [em0] 1 (1/10) 0 0 [] [] 1 (fun _ => 0)

/-- The C1 run: three frames of the particle system at dt = 1/30, no
boundary, after setupC1. -/
noncomputable def runC1 : World :=
  (updateParticleSystem (1/30) 100 100 [] false)^[3] setupC1

/-- Emitter used for the C4 counterexample: no plume, emission rate 600
particles/second. -/
def emFast : Emitter := { em0 with emissionRate := 600, initialPlume := 0 }

/-- C4 run configuration: one fast emitter, max 1 particle. -/
noncomputable def setupC4 : World :=
  setupParticleSystem 100 100 [emFast] 1 (1/10) 0 0 [] [] 1 (fun _ => 0)

/-- Well used for the C5 counterexample: attract, strength 1, radius 2,
placed at the origin. -/
def wellC5 : Well := { position := ⟨0, 0⟩, strength := 1, radius := 2, kind := .attract }

/-- Well used for the C5 witness: attract, strength 2, radius 10. -/
def wellC5w : Well := { position := ⟨0, 0⟩, strength := 2, radius := 10, kind := .attract }

/-- Boundary segment used in the C3/C7 scenarios: the x-axis edge from
(0,0) to (2,0). -/
def segC3 : Segment := { a := ⟨0, 0⟩, b := ⟨2, 0⟩ }

/-- Particle used for the C3 failing input: it crosses segC3 during the
sub-step. -/
def pC3 : Particle :=
  { position := ⟨1, -1⟩, velocity := ⟨0, 300⟩, force := 0,
    creationTime := 0, lifetime := 1, size := 2, color := (1, 1, 1) }

/-- Particle used for the C7 witness. -/
def pC7 : Particle :=
  { position := ⟨1, -1⟩, velocity := ⟨0, 2⟩, force := 0,
    creationTime := 0, lifetime := 1, size := 2, color := (1, 1, 1) }

/-- Vortex used for the C8 counterexample: about to cross the right
frame bound. -/
def vC8 : Vortex :=
  { position := ⟨99, 50⟩, velocity := ⟨150, 0⟩, strength := 1, radius := 10,
    inwardFactor := 0 }

/-- First vortex of the C6 witness (in range of the particle). -/
noncomputable def vortexA : Vortex :=
  { position := ⟨3, 4⟩, velocity := ⟨0, 0⟩, strength := 2, radius := 10,
    inwardFactor := 1/2 }

/-- Second (last) vortex of the C6 witness (also in range). -/
def vortexB : Vortex :=
  { position := ⟨0, -5⟩, velocity := ⟨0, 0⟩, strength := 3, radius := 6,
    inwardFactor := 1 }

/-- Particle used for the C6 witness. -/
def pC6 : Particle :=
  { position := ⟨0, 0⟩, velocity := ⟨7, 8⟩, force := 0,
    creationTime := 0, lifetime := 1, size := 2, color := (1, 1, 1) }

/-- A minimal world used by closed witness statements. -/
noncomputable def worldDemo : World :=
  { particles := [], particlesToEmit := [], totalParticlesEmitted := 0,
    maxParticles := 0, particleLifetime := 1, emitters := [], vortices := [],
    gravityWells := [], wellStrengthMultiplier := 1, spaceGravity := ⟨0, 0⟩,
    maskShapes := [], spaceCurrDt := 0, clock := 0, rng := fun _ => 0, rngIdx := 0 }

/-- worldDemo with room for 10 particles. -/
noncomputable def worldDemo10 : World := { worldDemo with maxParticles := 10 }

/-- The world fields that the emission while loop never touches (used
to transport facts through emitLoop and emitAll). -/
def emitFields (w w2 : World) : Prop :=
  w2.maxParticles = w.maxParticles ∧
  w2.emitters = w.emitters ∧
  w2.particlesToEmit = w.particlesToEmit ∧
  w2.particleLifetime = w.particleLifetime ∧
  w2.vortices = w.vortices ∧
  w2.gravityWells = w.gravityWells ∧
  w2.wellStrengthMultiplier = w.wellStrengthMultiplier ∧
  w2.spaceGravity = w.spaceGravity ∧
  w2.maskShapes = w.maskShapes ∧
  w2.spaceCurrDt = w.spaceCurrDt ∧
  w2.clock = w.clock

/-! Basic component lemmas for the vector operations. -/

@[simp] theorem zero_x : (0 : Vec2).x = 0 := rfl

@[simp] theorem zero_y : (0 : Vec2).y = 0 := rfl

@[simp] theorem add_x (a b : Vec2) : (a + b).x = a.x + b.x := rfl

@[simp] theorem add_y (a b : Vec2) : (a + b).y = a.y + b.y := rfl

@[simp] theorem sub_x (a b : Vec2) : (a - b).x = a.x - b.x := rfl

@[simp] theorem sub_y (a b : Vec2) : (a - b).y = a.y - b.y := rfl

@[simp] theorem neg_x (a : Vec2) : (-a).x = -a.x := rfl

@[simp] theorem neg_y (a : Vec2) : (-a).y = -a.y := rfl

@[simp] theorem smul_x (c : ℝ) (a : Vec2) : (c • a).x = c * a.x := rfl

@[simp] theorem smul_y (c : ℝ) (a : Vec2) : (c • a).y = c * a.y := rfl

theorem len_nonneg (a : Vec2) : 0 ≤ len a := Real.sqrt_nonneg _

theorem sq_len (a : Vec2) : len a ^ 2 = a.x ^ 2 + a.y ^ 2 :=
  Real.sq_sqrt (by positivity)

theorem len_eq_zero_iff (a : Vec2) : len a = 0 ↔ a.x = 0 ∧ a.y = 0 := by
  unfold len
  rw [Real.sqrt_eq_zero']
  constructor
  · intro h
    have hx : a.x ^ 2 = 0 := by nlinarith [sq_nonneg a.x, sq_nonneg a.y]
    have hy : a.y ^ 2 = 0 := by nlinarith [sq_nonneg a.x, sq_nonneg a.y]
    exact ⟨(pow_eq_zero_iff (by norm_num : (2 : ℕ) ≠ 0)).mp hx,
      (pow_eq_zero_iff (by norm_num : (2 : ℕ) ≠ 0)).mp hy⟩
  · rintro ⟨hx, hy⟩
    simp [hx, hy]

theorem len_mk_zero : len ⟨0, 0⟩ = 0 := by
  rw [len_eq_zero_iff]
  exact ⟨rfl, rfl⟩

theorem len_normalized (a : Vec2) (h : len a ≠ 0) : len (normalized a) = 1 := by
  have hsq : len a ^ 2 = a.x ^ 2 + a.y ^ 2 := sq_len a
  unfold normalized
  rw [if_neg h]
  show Real.sqrt ((a.x / len a) ^ 2 + (a.y / len a) ^ 2) = 1
  have e : (a.x / len a) ^ 2 + (a.y / len a) ^ 2 = 1 := by
    field_simp
    linarith [hsq]
  rw [e, Real.sqrt_one]

theorem len_smul (c : ℝ) (a : Vec2) : len (c • a) = |c| * len a := by
  unfold len
  simp only [smul_x, smul_y]
  rw [show (c * a.x) ^ 2 + (c * a.y) ^ 2 = c ^ 2 * (a.x ^ 2 + a.y ^ 2) by ring]
  rw [Real.sqrt_mul (by positivity), Real.sqrt_sq_eq_abs]

theorem smul_zero_vec (c : ℝ) : c • (⟨0, 0⟩ : Vec2) = 0 := by
  ext <;> simp

/-! Claim C10: the segment-intersection test. -/

/-- Counterexample for claim C10: the segments ((1,0),(1,1)) and
((0,0),(2,0)) have an endpoint of the first lying exactly on the second
(a grazing T-contact, shown by the explicit convex combination), yet
line_segment_intersect returns true — so the claim that such contacts
return false (and trigger no collision response) is wrong. -/
theorem C10_counterexample :
    lineSegmentIntersect ⟨1, 0⟩ ⟨1, 1⟩ ⟨0, 0⟩ ⟨2, 0⟩ ∧
    (⟨1, 0⟩ : Vec2) = (⟨0, 0⟩ : Vec2) + (1 / 2 : ℝ) • ((⟨2, 0⟩ : Vec2) - ⟨0, 0⟩) ∧
    (0 : ℝ) < 1 / 2 ∧ (1 / 2 : ℝ) < 1 := by
  have a1 : ¬ ccwProp ⟨1, 0⟩ ⟨0, 0⟩ ⟨2, 0⟩ := by norm_num [ccwProp]
  have a2 : ccwProp ⟨1, 1⟩ ⟨0, 0⟩ ⟨2, 0⟩ := by norm_num [ccwProp]
  have a3 : ccwProp ⟨1, 0⟩ ⟨1, 1⟩ ⟨0, 0⟩ := by norm_num [ccwProp]
  have a4 : ¬ ccwProp ⟨1, 0⟩ ⟨1, 1⟩ ⟨2, 0⟩ := by norm_num [ccwProp]
  refine ⟨⟨fun hiff => a1 (hiff.mpr a2), fun hiff => a4 (hiff.mp a3)⟩, ?_, by norm_num,
    by norm_num⟩
  ext <;> simp

/-- Claim C10 (amended): line_segment_intersect returns false whenever
the two segments are collinear (including collinear overlap), so
collinear contacts trigger no collision response; an endpoint of one
segment lying exactly on the other segment, however, may still return
true (see the counterexample). -/
theorem C10_collinear_amended (p1 p2 p3 p4 : Vec2)
    (h1 : cross (p4 - p3) (p1 - p3) = 0)
    (h2 : cross (p4 - p3) (p2 - p3) = 0) :
    ¬ lineSegmentIntersect p1 p2 p3 p4 := by
  simp only [cross, sub_x, sub_y] at h1 h2
  have e1 : (p4.y - p1.y) * (p3.x - p1.x) = (p3.y - p1.y) * (p4.x - p1.x) := by
    linear_combination h1
  have e2 : (p4.y - p2.y) * (p3.x - p2.x) = (p3.y - p2.y) * (p4.x - p2.x) := by
    linear_combination h2
  intro h
  apply h.1
  have f1 : ¬ ccwProp p1 p3 p4 := by
    unfold ccwProp
    rw [e1]
    exact lt_irrefl _
  have f2 : ¬ ccwProp p2 p3 p4 := by
    unfold ccwProp
    rw [e2]
    exact lt_irrefl _
  exact iff_of_false f1 f2

/-- Witness for C10_collinear_amended at a concrete collinear pair of
segments. -/
theorem C10_collinear_amended_witness :
    ¬ lineSegmentIntersect ⟨0, 0⟩ ⟨3, 0⟩ ⟨1, 0⟩ ⟨2, 0⟩ :=
  C10_collinear_amended ⟨0, 0⟩ ⟨3, 0⟩ ⟨1, 0⟩ ⟨2, 0⟩
    (by norm_num [cross]) (by norm_num [cross])

/-! Concrete length evaluation and further vector lemmas. -/

theorem len_eval (a b c : ℝ) (h : a ^ 2 + b ^ 2 = c ^ 2) (hc : 0 ≤ c) :
    len ⟨a, b⟩ = c := by
  show Real.sqrt (a ^ 2 + b ^ 2) = c
  rw [h]
  exact Real.sqrt_sq hc

theorem len_neg (a : Vec2) : len (-a) = len a := by
  unfold len
  simp

theorem vadd_zero (a : Vec2) : a + 0 = a := by
  ext <;> simp

theorem vadd_assoc (a b c : Vec2) : a + b + c = a + (b + c) := by
  ext <;> simp <;> ring

@[simp] theorem sumVec_nil : sumVec [] = 0 := rfl

@[simp] theorem sumVec_cons (v : Vec2) (l : List Vec2) :
    sumVec (v :: l) = v + sumVec l := rfl

/-! Claim C5: gravity-well force helper lemmas. -/

theorem wellForce_out (mult : ℝ) (w : Well) (pos : Vec2)
    (h : w.radius ≤ len (w.position - pos)) : wellForce mult w pos = 0 := by
  unfold wellForce
  rw [if_neg (not_lt.mpr h)]

theorem wellForce_zero_offset (mult : ℝ) (w : Well) (pos : Vec2)
    (h0 : len (w.position - pos) = 0) : wellForce mult w pos = 0 := by
  have hnorm : normalized (w.position - pos) = ⟨0, 0⟩ := by
    unfold normalized
    rw [if_pos h0]
  unfold wellForce
  by_cases hr : len (w.position - pos) < w.radius
  · rw [if_pos hr, hnorm]
    cases hk : w.kind
    · exact smul_zero_vec _
    · show _ • -(⟨0, 0⟩ : Vec2) = 0
      have : -(⟨0, 0⟩ : Vec2) = ⟨0, 0⟩ := by ext <;> simp
      rw [this]
      exact smul_zero_vec _
  · rw [if_neg hr]

theorem wellForce_in_attract (mult : ℝ) (w : Well) (pos : Vec2)
    (hr : len (w.position - pos) < w.radius) (hk : w.kind = WellKind.attract) :
    wellForce mult w pos
      = (w.strength * (1 - len (w.position - pos) / w.radius) * mult) •
          normalized (w.position - pos) := by
  unfold wellForce
  rw [if_pos hr, hk]

theorem wellForce_in_repel (mult : ℝ) (w : Well) (pos : Vec2)
    (hr : len (w.position - pos) < w.radius) (hk : w.kind = WellKind.repel) :
    wellForce mult w pos
      = (w.strength * (1 - len (w.position - pos) / w.radius) * mult) •
          -(normalized (w.position - pos)) := by
  unfold wellForce
  rw [if_pos hr, hk]

theorem wellForce_len_in (mult : ℝ) (w : Well) (pos : Vec2)
    (hd : 0 < len (w.position - pos)) (hr : len (w.position - pos) < w.radius)
    (hs : 0 ≤ w.strength) (hm : 0 ≤ mult) :
    len (wellForce mult w pos)
      = w.strength * (1 - len (w.position - pos) / w.radius) * mult := by
  have hradius : 0 < w.radius := lt_trans hd hr
  have hfrac : 0 ≤ 1 - len (w.position - pos) / w.radius := by
    have : len (w.position - pos) / w.radius < 1 := by
      rw [div_lt_one hradius]
      exact hr
    linarith
  have hmagnn : 0 ≤ w.strength * (1 - len (w.position - pos) / w.radius) * mult := by
    positivity
  have hlen1 : len (normalized (w.position - pos)) = 1 :=
    len_normalized _ (ne_of_gt hd)
  cases hk : w.kind
  · rw [wellForce_in_attract mult w pos hr hk, len_smul, hlen1, mul_one,
      abs_of_nonneg hmagnn]
  · rw [wellForce_in_repel mult w pos hr hk, len_smul, len_neg, hlen1, mul_one,
      abs_of_nonneg hmagnn]

theorem wellForce_mono (mult : ℝ) (w : Well) (pos1 pos2 : Vec2)
    (hs : 0 < w.strength) (hm : 0 < mult)
    (hd1 : 0 < len (w.position - pos1))
    (h12 : len (w.position - pos1) < len (w.position - pos2))
    (hr2 : len (w.position - pos2) < w.radius) :
    len (wellForce mult w pos2) < len (wellForce mult w pos1) := by
  have hd2 : 0 < len (w.position - pos2) := lt_trans hd1 h12
  have hr1 : len (w.position - pos1) < w.radius := lt_trans h12 hr2
  have hradius : 0 < w.radius := lt_trans hd2 hr2
  rw [wellForce_len_in mult w pos1 hd1 hr1 (le_of_lt hs) (le_of_lt hm),
    wellForce_len_in mult w pos2 hd2 hr2 (le_of_lt hs) (le_of_lt hm)]
  have hdiv : len (w.position - pos1) / w.radius < len (w.position - pos2) / w.radius :=
    (div_lt_div_iff_of_pos_right hradius).mpr h12
  have hsm : 0 < w.strength * mult := mul_pos hs hm
  calc w.strength * (1 - len (w.position - pos2) / w.radius) * mult
      = (w.strength * mult) * (1 - len (w.position - pos2) / w.radius) := by ring
    _ < (w.strength * mult) * (1 - len (w.position - pos1) / w.radius) :=
        mul_lt_mul_of_pos_left (by linarith) hsm
    _ = w.strength * (1 - len (w.position - pos1) / w.radius) * mult := by ring

theorem applyGravityWellForce_spec (mult : ℝ) (wells : List Well) (p : Particle) :
    (applyGravityWellForce mult wells p).force
        = p.force + sumVec (wells.map (fun w => wellForce mult w p.position)) ∧
      (applyGravityWellForce mult wells p).position = p.position ∧
      (applyGravityWellForce mult wells p).velocity = p.velocity ∧
      (applyGravityWellForce mult wells p).creationTime = p.creationTime ∧
      (applyGravityWellForce mult wells p).lifetime = p.lifetime ∧
      (applyGravityWellForce mult wells p).size = p.size := by
  induction wells generalizing p with
  | nil =>
      refine ⟨?_, rfl, rfl, rfl, rfl, rfl⟩
      simp [applyGravityWellForce, vadd_zero]
  | cons w rest ih =>
      have h := ih { p with force := p.force + wellForce mult w p.position }
      refine ⟨?_, h.2.1, h.2.2.1, h.2.2.2.1, h.2.2.2.2.1, h.2.2.2.2.2⟩
      show (applyGravityWellForce mult rest
        { p with force := p.force + wellForce mult w p.position }).force = _
      rw [h.1]
      simp only [List.map_cons, sumVec_cons]
      exact vadd_assoc _ _ _

/-- Counterexample for claim C5: a particle at zero distance from an
attract well (strength 1, radius 2, multiplier 1) receives the zero
force, while the claimed magnitude formula strength * (1 - d/radius) *
multiplier gives 1 at d = 0 — so the "for 0 <= d < radius" magnitude
clause (and strict decrease from d = 0) is wrong; the zero-force
special case holds instead. -/
theorem C5_counterexample :
    len (wellC5.position - ⟨0, 0⟩) = 0 ∧
    (0 : ℝ) < wellC5.radius ∧
    wellForce 1 wellC5 ⟨0, 0⟩ = 0 ∧
    wellC5.strength * (1 - len (wellC5.position - ⟨0, 0⟩) / wellC5.radius) * 1 = 1 ∧
    len (wellForce 1 wellC5 ⟨0, 0⟩)
      ≠ wellC5.strength * (1 - len (wellC5.position - ⟨0, 0⟩) / wellC5.radius) * 1 := by
  have h0 : len (wellC5.position - ⟨0, 0⟩) = 0 := by
    rw [len_eq_zero_iff]
    constructor <;> simp [wellC5]
  have hforce : wellForce 1 wellC5 ⟨0, 0⟩ = 0 := wellForce_zero_offset 1 wellC5 _ h0
  refine ⟨h0, by norm_num [wellC5], hforce, ?_, ?_⟩
  · rw [h0]
    norm_num [wellC5]
  · rw [h0, hforce, show len (0 : Vec2) = 0 from len_mk_zero]
    norm_num [wellC5]

/-- Claim C5 (amended): a well contributes exactly zero force at
distance at least its radius; for 0 < d < radius the force has
magnitude strength * (1 - d/radius) * well-strength-multiplier,
directed along the normalized offset toward the well for attract and
away for repel; at d = 0 the zero offset is normalized to the zero
vector, so the contribution is zero (not NaN) rather than the formula
value; the applied magnitude is strictly decreasing in d on
(0, radius); and the contributions of the configured wells accumulate
additively into the particle force. -/
theorem C5_well_force_amended :
    (∀ (mult : ℝ) (w : Well) (pos : Vec2), w.radius ≤ len (w.position - pos) →
        wellForce mult w pos = 0) ∧
    (∀ (mult : ℝ) (w : Well) (pos : Vec2), len (w.position - pos) = 0 →
        wellForce mult w pos = 0) ∧
    (∀ (mult : ℝ) (w : Well) (pos : Vec2), 0 < len (w.position - pos) →
        len (w.position - pos) < w.radius → 0 ≤ w.strength → 0 ≤ mult →
        len (wellForce mult w pos)
          = w.strength * (1 - len (w.position - pos) / w.radius) * mult) ∧
    (∀ (mult : ℝ) (w : Well) (pos : Vec2), len (w.position - pos) < w.radius →
        w.kind = WellKind.attract →
        wellForce mult w pos
          = (w.strength * (1 - len (w.position - pos) / w.radius) * mult) •
              normalized (w.position - pos)) ∧
    (∀ (mult : ℝ) (w : Well) (pos : Vec2), len (w.position - pos) < w.radius →
        w.kind = WellKind.repel →
        wellForce mult w pos
          = (w.strength * (1 - len (w.position - pos) / w.radius) * mult) •
              -(normalized (w.position - pos))) ∧
    (∀ (mult : ℝ) (w : Well) (pos1 pos2 : Vec2), 0 < w.strength → 0 < mult →
        0 < len (w.position - pos1) →
        len (w.position - pos1) < len (w.position - pos2) →
        len (w.position - pos2) < w.radius →
        len (wellForce mult w pos2) < len (wellForce mult w pos1)) ∧
    (∀ (mult : ℝ) (wells : List Well) (p : Particle),
        (applyGravityWellForce mult wells p).force
            = p.force + sumVec (wells.map (fun w => wellForce mult w p.position)) ∧
          (applyGravityWellForce mult wells p).position = p.position ∧
          (applyGravityWellForce mult wells p).velocity = p.velocity) :=
  ⟨wellForce_out, wellForce_zero_offset, wellForce_len_in, wellForce_in_attract,
    wellForce_in_repel, wellForce_mono,
    fun mult wells p =>
      ⟨(applyGravityWellForce_spec mult wells p).1,
        (applyGravityWellForce_spec mult wells p).2.1,
        (applyGravityWellForce_spec mult wells p).2.2.1⟩⟩

/-- Witness for C5_well_force_amended: an attract well of strength 2,
radius 10, multiplier 3 exerts a force of magnitude 3 on a particle at
distance 5, and zero force on a particle at distance 10. -/
theorem C5_well_force_amended_witness :
    len (wellForce 3 wellC5w ⟨3, 4⟩) = 3 ∧ wellForce 3 wellC5w ⟨6, 8⟩ = 0 := by
  have h5 : len (wellC5w.position - ⟨3, 4⟩) = 5 := by
    have : wellC5w.position - ⟨3, 4⟩ = (⟨-3, -4⟩ : Vec2) := by
      ext <;> simp [wellC5w]
    rw [this]
    exact len_eval (-3) (-4) 5 (by norm_num) (by norm_num)
  have h10 : len (wellC5w.position - ⟨6, 8⟩) = 10 := by
    have : wellC5w.position - ⟨6, 8⟩ = (⟨-6, -8⟩ : Vec2) := by
      ext <;> simp [wellC5w]
    rw [this]
    exact len_eval (-6) (-8) 10 (by norm_num) (by norm_num)
  constructor
  · rw [C5_well_force_amended.2.2.1 3 wellC5w ⟨3, 4⟩ (by rw [h5]; norm_num)
      (by rw [h5]; norm_num [wellC5w]) (by norm_num [wellC5w]) (by norm_num)]
    rw [h5]
    norm_num [wellC5w]
  · exact C5_well_force_amended.1 3 wellC5w ⟨6, 8⟩ (by rw [h10]; norm_num [wellC5w])

/-! Claim C6: vortex forces overwrite instead of summing. -/

theorem applyVortexForce_fields (vs : List Vortex) (p : Particle) :
    (applyVortexForce vs p).position = p.position ∧
    (applyVortexForce vs p).force = p.force ∧
    (applyVortexForce vs p).creationTime = p.creationTime ∧
    (applyVortexForce vs p).lifetime = p.lifetime ∧
    (applyVortexForce vs p).size = p.size := by
  induction vs generalizing p with
  | nil => exact ⟨rfl, rfl, rfl, rfl, rfl⟩
  | cons v rest ih =>
      simp only [applyVortexForce]
      by_cases h : len (p.position - v.position) < v.radius
      · rw [if_pos h]
        exact ih _
      · rw [if_neg h]
        exact ih p

theorem applyVortexForce_append (l1 l2 : List Vortex) (p : Particle) :
    applyVortexForce (l1 ++ l2) p = applyVortexForce l2 (applyVortexForce l1 p) := by
  induction l1 generalizing p with
  | nil => rfl
  | cons v rest ih =>
      simp only [List.cons_append, applyVortexForce]
      exact ih _

theorem applyVortexForce_out_of_range (vs : List Vortex) (p : Particle)
    (h : ∀ u ∈ vs, ¬ len (p.position - u.position) < u.radius) :
    applyVortexForce vs p = p := by
  induction vs with
  | nil => rfl
  | cons v rest ih =>
      simp only [applyVortexForce]
      rw [if_neg (h v (List.mem_cons_self v rest))]
      exact ih fun u hu => h u (List.mem_cons_of_mem v hu)

/-- Claim C6: when a particle is inside the radius of several vortices,
the loop in apply_vortex_force assigns (not sums) the velocity, so the
final velocity is exactly the tangential-plus-radial velocity of the
last in-range vortex in list order, and the earlier vortices have no
effect on the result; the particle position is untouched by the pass. -/
theorem C6_vortex_last_write_wins (l1 l2 : List Vortex) (v : Vortex) (p : Particle)
    (hv : len (p.position - v.position) < v.radius)
    (h2 : ∀ u ∈ l2, ¬ len (p.position - u.position) < u.radius) :
    (applyVortexForce (l1 ++ v :: l2) p).velocity = vortexVelocity v p.position ∧
    (applyVortexForce (l1 ++ v :: l2) p).position = p.position := by
  have happ := applyVortexForce_append l1 (v :: l2) p
  have hqpos : (applyVortexForce l1 p).position = p.position :=
    (applyVortexForce_fields l1 p).1
  set q := applyVortexForce l1 p with hq
  have hstep : applyVortexForce (v :: l2) q
      = applyVortexForce l2 { q with velocity := vortexVelocity v p.position } := by
    simp only [applyVortexForce]
    rw [hqpos, if_pos hv]
  have hlast : applyVortexForce l2 { q with velocity := vortexVelocity v p.position }
      = { q with velocity := vortexVelocity v p.position } := by
    apply applyVortexForce_out_of_range
    intro u hu
    show ¬ len (q.position - u.position) < u.radius
    rw [hqpos]
    exact h2 u hu
  rw [happ, hstep, hlast]
  exact ⟨rfl, hqpos⟩

/-- Witness for C6_vortex_last_write_wins: a particle in range of both
vortexA and vortexB ends the pass with exactly vortexB's assigned
velocity. -/
theorem C6_vortex_last_write_wins_witness :
    (applyVortexForce [vortexA, vortexB] pC6).velocity
        = vortexVelocity vortexB pC6.position ∧
    (applyVortexForce [vortexA, vortexB] pC6).position = pC6.position := by
  have hB : len (pC6.position - vortexB.position) < vortexB.radius := by
    have e : pC6.position - vortexB.position = (⟨0, 5⟩ : Vec2) := by
      ext <;> simp [pC6, vortexB]
    rw [e, len_eval 0 5 5 (by norm_num) (by norm_num)]
    norm_num [vortexB]
  exact C6_vortex_last_write_wins [vortexA] [] vortexB pC6 hB (by simp)

/-! Claim C7: collision reflection is energy-reducing. -/

theorem dot_self_len (u : Vec2) : len u = Real.sqrt (dot u u) := by
  unfold len dot
  congr 1
  ring

theorem vsub_zero (a : Vec2) : a - 0 = a := by
  ext <;> simp

theorem perpNorm_cases (a : Vec2) :
    perpendicularNormal a = ⟨0, 0⟩ ∨
      dot (perpendicularNormal a) (perpendicularNormal a) = 1 := by
  by_cases h : len a = 0
  · left
    unfold perpendicularNormal
    rw [if_pos h]
    rcases (len_eq_zero_iff a).mp h with ⟨hx, hy⟩
    ext <;> simp [hx, hy]
  · right
    unfold perpendicularNormal
    rw [if_neg h]
    show -a.y / len a * (-a.y / len a) + a.x / len a * (a.x / len a) = 1
    have hsq := sq_len a
    field_simp
    nlinarith [hsq]

theorem reflect_len (v n : Vec2) (hn : n = ⟨0, 0⟩ ∨ dot n n = 1) :
    len (v - (2 * dot v n) • n) = len v := by
  rcases hn with h | h
  · rw [h]
    have hd : dot v (⟨0, 0⟩ : Vec2) = 0 := by
      unfold dot
      simp
    rw [hd]
    norm_num
    rw [smul_zero_vec, vsub_zero]
  · rw [dot_self_len, dot_self_len v]
    congr 1
    unfold dot at h ⊢
    simp only [sub_x, sub_y, smul_x, smul_y]
    linear_combination (2 * (v.x * n.x + v.y * n.y)) ^ 2 * h

theorem reflect_dot (v n : Vec2) (hn : n = ⟨0, 0⟩ ∨ dot n n = 1) :
    dot (v - (2 * dot v n) • n) n = -(dot v n) := by
  rcases hn with h | h
  · rw [h]
    unfold dot
    simp
  · unfold dot at h ⊢
    simp only [sub_x, sub_y, smul_x, smul_y]
    linear_combination (-2 * (v.x * n.x + v.y * n.y)) * h

theorem dot_smul_left (c : ℝ) (a b : Vec2) : dot (c • a) b = c * dot a b := by
  unfold dot
  simp only [smul_x, smul_y]
  ring

theorem checkCollision_first_hit (p : Particle) (oldPos newPos : Vec2)
    (l1 l2 : List Segment) (s : Segment)
    (hmiss : ∀ t ∈ l1, ¬ lineSegmentIntersect oldPos newPos t.a t.b)
    (hhit : lineSegmentIntersect oldPos newPos s.a s.b) :
    checkParticleMaskCollision p oldPos newPos (l1 ++ s :: l2)
      = collide p oldPos newPos s := by
  induction l1 with
  | nil =>
      simp only [List.nil_append, checkParticleMaskCollision]
      rw [if_pos hhit]
  | cons t rest ih =>
      simp only [List.cons_append, checkParticleMaskCollision]
      rw [if_neg (hmiss t (List.mem_cons_self t rest))]
      exact ih fun u hu => hmiss u (List.mem_cons_of_mem t hu)

/-- Claim C7: for every boundary collision (the first intersecting
segment in order), the post-bounce speed is exactly 0.9 times the
pre-bounce speed (reflection about the segment normal preserves the
magnitude, the restitution factor 0.9 then shrinks it — in particular
post-speed <= pre-speed), and the velocity component along the segment
normal reverses sign, scaled by 0.9. -/
theorem C7_bounce_energy (p : Particle) (oldPos newPos : Vec2) (l1 l2 : List Segment)
    (s : Segment)
    (hmiss : ∀ t ∈ l1, ¬ lineSegmentIntersect oldPos newPos t.a t.b)
    (hhit : lineSegmentIntersect oldPos newPos s.a s.b) :
    len (checkParticleMaskCollision p oldPos newPos (l1 ++ s :: l2)).velocity
        = 0.9 * len p.velocity ∧
    len (checkParticleMaskCollision p oldPos newPos (l1 ++ s :: l2)).velocity
        ≤ len p.velocity ∧
    dot (checkParticleMaskCollision p oldPos newPos (l1 ++ s :: l2)).velocity
        (perpendicularNormal (s.b - s.a))
      = -(0.9 * dot p.velocity (perpendicularNormal (s.b - s.a))) := by
  have hfirst := checkCollision_first_hit p oldPos newPos l1 l2 s hmiss hhit
  rw [hfirst]
  have hvel : (collide p oldPos newPos s).velocity
      = (0.9 : ℝ) • (p.velocity -
          (2 * dot p.velocity (perpendicularNormal (s.b - s.a))) •
            perpendicularNormal (s.b - s.a)) := rfl
  have hcases := perpNorm_cases (s.b - s.a)
  have hlen : len (collide p oldPos newPos s).velocity = 0.9 * len p.velocity := by
    rw [hvel, len_smul, reflect_len p.velocity _ hcases]
    norm_num
  refine ⟨hlen, ?_, ?_⟩
  · rw [hlen]
    nlinarith [len_nonneg p.velocity]
  · rw [hvel, dot_smul_left, reflect_dot p.velocity _ hcases]
    ring

theorem intersectDemo : lineSegmentIntersect ⟨1, -1⟩ ⟨1, 1⟩ ⟨0, 0⟩ ⟨2, 0⟩ := by
  have a1 : ¬ ccwProp ⟨1, -1⟩ ⟨0, 0⟩ ⟨2, 0⟩ := by norm_num [ccwProp]
  have a2 : ccwProp ⟨1, 1⟩ ⟨0, 0⟩ ⟨2, 0⟩ := by norm_num [ccwProp]
  have a3 : ccwProp ⟨1, -1⟩ ⟨1, 1⟩ ⟨0, 0⟩ := by norm_num [ccwProp]
  have a4 : ¬ ccwProp ⟨1, -1⟩ ⟨1, 1⟩ ⟨2, 0⟩ := by norm_num [ccwProp]
  exact ⟨fun h => a1 (h.mpr a2), fun h => a4 (h.mp a3)⟩

/-- Witness for C7_bounce_energy at the concrete crossing of segC3. -/
theorem C7_bounce_energy_witness :
    len (checkParticleMaskCollision pC7 ⟨1, -1⟩ ⟨1, 1⟩ [segC3]).velocity
        = 0.9 * len pC7.velocity ∧
    dot (checkParticleMaskCollision pC7 ⟨1, -1⟩ ⟨1, 1⟩ [segC3]).velocity
        (perpendicularNormal (segC3.b - segC3.a))
      = -(0.9 * dot pC7.velocity (perpendicularNormal (segC3.b - segC3.a))) := by
  have h := C7_bounce_energy pC7 ⟨1, -1⟩ ⟨1, 1⟩ [] [] segC3 (by simp) intersectDemo
  exact ⟨h.1, h.2.2⟩

/-! Claim C3: the collision push-out is overwritten by the caller. -/

theorem perpNorm_segC3 : perpendicularNormal (segC3.b - segC3.a) = ⟨0, 1⟩ := by
  have e : segC3.b - segC3.a = (⟨2, 0⟩ : Vec2) := by
    ext <;> simp [segC3]
  rw [e]
  unfold perpendicularNormal
  have hl : len ⟨2, 0⟩ = 2 := len_eval 2 0 2 (by norm_num) (by norm_num)
  rw [if_neg (by rw [hl]; norm_num), hl]
  ext <;> norm_num

theorem collideC3_position :
    (collide pC3 ⟨1, -1⟩ ⟨1, 1⟩ segC3).position = ⟨1, 3⟩ := by
  show (⟨1, -1⟩ : Vec2) +
      (dot ((⟨1, 1⟩ : Vec2) - ⟨1, -1⟩) (perpendicularNormal (segC3.b - segC3.a)) +
        pC3.size / 2 + 1) • perpendicularNormal (segC3.b - segC3.a) = ⟨1, 3⟩
  rw [perpNorm_segC3]
  ext <;> simp [dot, pC3] <;> try norm_num

theorem collideC3_velocity :
    (collide pC3 ⟨1, -1⟩ ⟨1, 1⟩ segC3).velocity = ⟨0, -270⟩ := by
  show (0.9 : ℝ) • (pC3.velocity -
      (2 * dot pC3.velocity (perpendicularNormal (segC3.b - segC3.a))) •
        perpendicularNormal (segC3.b - segC3.a)) = ⟨0, -270⟩
  rw [perpNorm_segC3]
  ext <;> simp [dot, pC3] <;> try norm_num

theorem checkC3 :
    checkParticleMaskCollision pC3 ⟨1, -1⟩ ⟨1, 1⟩ [segC3]
      = collide pC3 ⟨1, -1⟩ ⟨1, 1⟩ segC3 := by
  simp only [checkParticleMaskCollision]
  rw [if_pos
    (show lineSegmentIntersect ⟨1, -1⟩ ⟨1, 1⟩ segC3.a segC3.b from intersectDemo)]

/-- Claim C3 at its failing input (a code bug): the particle crossing
segC3 during the sub-step ends the position-update loop at the
uncorrected integrated position (1,1) — inside the boundary — because
the caller's particle.position = new_pos overwrites the push-out
position (1,3) that check_particle_mask_collision had set; only the
reflected, restitution-scaled velocity survives. -/
theorem C3_pushout_overwritten :
    (particleMotionStep true [segC3] [] [] 1 (1/150) pC3).position = ⟨1, 1⟩ ∧
    (particleMotionStep true [segC3] [] [] 1 (1/150) pC3).velocity = ⟨0, -270⟩ ∧
    (checkParticleMaskCollision pC3 ⟨1, -1⟩ ⟨1, 1⟩ [segC3]).position = ⟨1, 3⟩ ∧
    ((⟨1, 1⟩ : Vec2) ≠ ⟨1, 3⟩) := by
  have hnew : pC3.position + ((1/150 : ℚ) : ℝ) • pC3.velocity = ⟨1, 1⟩ := by
    ext <;> simp [pC3] <;> try norm_num
  have hmotion : particleMotionStep true [segC3] [] [] 1 (1/150) pC3
      = { checkParticleMaskCollision pC3 ⟨1, -1⟩ ⟨1, 1⟩ [segC3] with
          position := ⟨1, 1⟩ } := by
    show ({ (if true then
        checkParticleMaskCollision pC3 pC3.position
          (pC3.position + ((1/150 : ℚ) : ℝ) • pC3.velocity) [segC3]
      else pC3) with
        position := pC3.position + ((1/150 : ℚ) : ℝ) • pC3.velocity } : Particle) = _
    rw [if_pos rfl, hnew]
    rfl
  refine ⟨?_, ?_, ?_, ?_⟩
  · rw [hmotion]
  · rw [hmotion]
    show (checkParticleMaskCollision pC3 ⟨1, -1⟩ ⟨1, 1⟩ [segC3]).velocity = _
    rw [checkC3, collideC3_velocity]
  · rw [checkC3, collideC3_position]
  · intro h
    have hy := congrArg Vec2.y h
    norm_num at hy

/-! Claim C8: vortex drift. -/

theorem updateVortex_eval (width height dt px py vx vy s r i npx npy : ℝ)
    (hx : npx = px + dt * vx) (hy : npy = py + dt * vy) :
    updateVortex width height dt ⟨⟨px, py⟩, ⟨vx, vy⟩, s, r, i⟩
      = ⟨⟨npx, npy⟩,
          ⟨(if npx < 0 ∨ npx > width then -vx else vx),
            (if npy < 0 ∨ npy > height then -vy else vy)⟩, s, r, i⟩ := by
  subst hx hy
  rfl

/-- Counterexample for claim C8: the code advances each vortex once per
frame with the full frame dt (update_vortices is called before the
sub-step loop), not once per sub-step; for a vortex at x = 99 moving at
150 px/s with dt = 1/30 in a 100-wide frame, the code ends the frame at
x = 104 (outside [0, width] by velocity*dt = 5), while the claimed
per-sub-step drift (updateVortexSubstepped, modelled from the spec
sentence) would end at x = 98. -/
theorem C8_counterexample :
    (updateVortex 100 100 (1/30) vC8).position = ⟨104, 50⟩ ∧
    (updateVortex 100 100 (1/30) vC8).velocity = ⟨-150, 0⟩ ∧
    (updateVortexSubstepped 100 100 (1/30) vC8).position = ⟨98, 50⟩ ∧
    (updateVortexSubstepped 100 100 (1/30) vC8).velocity = ⟨-150, 0⟩ ∧
    ((104 : ℝ) ≠ 98) ∧ ¬((104 : ℝ) ≤ 100) := by
  have hfull : updateVortex 100 100 (1/30) vC8
      = ⟨⟨104, 50⟩, ⟨-150, 0⟩, 1, 10, 0⟩ := by
    show updateVortex 100 100 (1/30) ⟨⟨99, 50⟩, ⟨150, 0⟩, 1, 10, 0⟩ = _
    rw [updateVortex_eval 100 100 (1/30) 99 50 150 0 1 10 0 104 50 (by norm_num)
      (by norm_num)]
    rw [if_pos (by norm_num : (104 : ℝ) < 0 ∨ (104 : ℝ) > 100),
      if_neg (by norm_num : ¬((50 : ℝ) < 0 ∨ (50 : ℝ) > 100))]
  have hsub : updateVortexSubstepped 100 100 (1/30) vC8
      = ⟨⟨98, 50⟩, ⟨-150, 0⟩, 1, 10, 0⟩ := by
    have e0 : updateVortexSubstepped 100 100 (1/30) vC8
        = updateVortex 100 100 ((1/30)/5) (updateVortex 100 100 ((1/30)/5)
            (updateVortex 100 100 ((1/30)/5) (updateVortex 100 100 ((1/30)/5)
              (updateVortex 100 100 ((1/30)/5) vC8)))) := rfl
    have s1 : updateVortex 100 100 ((1/30)/5) vC8
        = ⟨⟨100, 50⟩, ⟨150, 0⟩, 1, 10, 0⟩ := by
      show updateVortex 100 100 ((1/30)/5) ⟨⟨99, 50⟩, ⟨150, 0⟩, 1, 10, 0⟩ = _
      rw [updateVortex_eval 100 100 ((1/30)/5) 99 50 150 0 1 10 0 100 50 (by norm_num)
        (by norm_num)]
      rw [if_neg (by norm_num : ¬((100 : ℝ) < 0 ∨ (100 : ℝ) > 100)),
        if_neg (by norm_num : ¬((50 : ℝ) < 0 ∨ (50 : ℝ) > 100))]
    have s2 : updateVortex 100 100 ((1/30)/5) (⟨⟨100, 50⟩, ⟨150, 0⟩, 1, 10, 0⟩ : Vortex)
        = ⟨⟨101, 50⟩, ⟨-150, 0⟩, 1, 10, 0⟩ := by
      rw [updateVortex_eval 100 100 ((1/30)/5) 100 50 150 0 1 10 0 101 50 (by norm_num)
        (by norm_num)]
      rw [if_pos (by norm_num : (101 : ℝ) < 0 ∨ (101 : ℝ) > 100),
        if_neg (by norm_num : ¬((50 : ℝ) < 0 ∨ (50 : ℝ) > 100))]
    have s3 : updateVortex 100 100 ((1/30)/5) (⟨⟨101, 50⟩, ⟨-150, 0⟩, 1, 10, 0⟩ : Vortex)
        = ⟨⟨100, 50⟩, ⟨-150, 0⟩, 1, 10, 0⟩ := by
      rw [updateVortex_eval 100 100 ((1/30)/5) 101 50 (-150) 0 1 10 0 100 50 (by norm_num)
        (by norm_num)]
      rw [if_neg (by norm_num : ¬((100 : ℝ) < 0 ∨ (100 : ℝ) > 100)),
        if_neg (by norm_num : ¬((50 : ℝ) < 0 ∨ (50 : ℝ) > 100))]
    have s4 : updateVortex 100 100 ((1/30)/5) (⟨⟨100, 50⟩, ⟨-150, 0⟩, 1, 10, 0⟩ : Vortex)
        = ⟨⟨99, 50⟩, ⟨-150, 0⟩, 1, 10, 0⟩ := by
      rw [updateVortex_eval 100 100 ((1/30)/5) 100 50 (-150) 0 1 10 0 99 50 (by norm_num)
        (by norm_num)]
      rw [if_neg (by norm_num : ¬((99 : ℝ) < 0 ∨ (99 : ℝ) > 100)),
        if_neg (by norm_num : ¬((50 : ℝ) < 0 ∨ (50 : ℝ) > 100))]
    have s5 : updateVortex 100 100 ((1/30)/5) (⟨⟨99, 50⟩, ⟨-150, 0⟩, 1, 10, 0⟩ : Vortex)
        = ⟨⟨98, 50⟩, ⟨-150, 0⟩, 1, 10, 0⟩ := by
      rw [updateVortex_eval 100 100 ((1/30)/5) 99 50 (-150) 0 1 10 0 98 50 (by norm_num)
        (by norm_num)]
      rw [if_neg (by norm_num : ¬((98 : ℝ) < 0 ∨ (98 : ℝ) > 100)),
        if_neg (by norm_num : ¬((50 : ℝ) < 0 ∨ (50 : ℝ) > 100))]
    rw [e0, s1, s2, s3, s4, s5]
  refine ⟨by rw [hfull], by rw [hfull], by rw [hsub], by rw [hsub], by norm_num,
    by norm_num⟩

theorem BInv_step (bound dt c x vel : ℝ) (hb : 0 ≤ bound) (hdt : 0 < dt)
    (h : BInv bound dt c x vel) :
    BInv bound dt c (x + dt * vel)
      (if x + dt * vel < 0 ∨ x + dt * vel > bound then -vel else vel) := by
  obtain ⟨hc, hlo, hhi, hover, hunder⟩ := h
  have hcnn : 0 ≤ c := hc ▸ abs_nonneg vel
  have hv1 : vel ≤ c := hc ▸ le_abs_self vel
  have hv2 : -c ≤ vel := hc ▸ neg_abs_le vel
  have hdv1 : dt * vel ≤ dt * c := mul_le_mul_of_nonneg_left hv1 hdt.le
  have hdv2 : dt * (-c) ≤ dt * vel := mul_le_mul_of_nonneg_left hv2 hdt.le
  by_cases hflip : x + dt * vel < 0 ∨ x + dt * vel > bound
  · rw [if_pos hflip]
    refine ⟨by rw [abs_neg]; exact hc, ?_, ?_, ?_, ?_⟩
    · rcases lt_or_le bound x with hx | hx
      · have hvneg : vel < 0 := hover hx
        have hcv : c = -vel := by rw [← hc, abs_of_neg hvneg]
        nlinarith
      · rcases lt_or_le x 0 with hx0 | hx0
        · have hvpos : 0 < vel := hunder hx0
          nlinarith
        · nlinarith
    · rcases lt_or_le bound x with hx | hx
      · have hvneg : vel < 0 := hover hx
        have hcv : c = -vel := by rw [← hc, abs_of_neg hvneg]
        nlinarith
      · rcases lt_or_le x 0 with hx0 | hx0
        · have hvpos : 0 < vel := hunder hx0
          have hcv : c = vel := by rw [← hc, abs_of_pos hvpos]
          nlinarith
        · nlinarith
    · intro hx'
      rcases lt_or_le bound x with hx | hx
      · have hvneg : vel < 0 := hover hx
        have hcv : c = -vel := by rw [← hc, abs_of_neg hvneg]
        nlinarith
      · rcases lt_or_le x 0 with hx0 | hx0
        · have hvpos : 0 < vel := hunder hx0
          nlinarith
        · have hvpos : 0 < vel := by nlinarith
          nlinarith
    · intro hx'
      rcases lt_or_le bound x with hx | hx
      · have hvneg : vel < 0 := hover hx
        nlinarith
      · rcases lt_or_le x 0 with hx0 | hx0
        · have hvpos : 0 < vel := hunder hx0
          have hcv : c = vel := by rw [← hc, abs_of_pos hvpos]
          nlinarith
        · have hvneg : vel < 0 := by nlinarith
          nlinarith
  · rw [if_neg hflip]
    push_neg at hflip
    obtain ⟨hge, hle⟩ := hflip
    refine ⟨hc, by nlinarith, by nlinarith, ?_, ?_⟩
    · intro hx'
      exact absurd hx' (not_lt.mpr hle)
    · intro hx'
      exact absurd hx' (not_lt.mpr hge)

theorem updateVortex_x_step (width height dt : ℝ) (c : ℝ) (hb : 0 ≤ width)
    (hdt : 0 < dt) (u : Vortex) (h : BInv width dt c u.position.x u.velocity.x) :
    BInv width dt c (updateVortex width height dt u).position.x
      (updateVortex width height dt u).velocity.x := by
  have hstep := BInv_step width dt c u.position.x u.velocity.x hb hdt h
  exact hstep

theorem updateVortex_y_step (width height dt : ℝ) (c : ℝ) (hb : 0 ≤ height)
    (hdt : 0 < dt) (u : Vortex) (h : BInv height dt c u.position.y u.velocity.y) :
    BInv height dt c (updateVortex width height dt u).position.y
      (updateVortex width height dt u).velocity.y := by
  have hstep := BInv_step height dt c u.position.y u.velocity.y hb hdt h
  exact hstep

theorem iterate_vortex_BInv (width height dt : ℝ) (cx cy : ℝ) (hw : 0 ≤ width)
    (hh : 0 ≤ height) (hdt : 0 < dt) (v : Vortex)
    (hx : BInv width dt cx v.position.x v.velocity.x)
    (hy : BInv height dt cy v.position.y v.velocity.y) (n : ℕ) :
    BInv width dt cx ((updateVortex width height dt)^[n] v).position.x
        ((updateVortex width height dt)^[n] v).velocity.x ∧
      BInv height dt cy ((updateVortex width height dt)^[n] v).position.y
        ((updateVortex width height dt)^[n] v).velocity.y := by
  induction n with
  | zero => exact ⟨hx, hy⟩
  | succ n ih =>
      rw [Function.iterate_succ_apply']
      exact ⟨updateVortex_x_step width height dt cx hw hdt _ ih.1,
        updateVortex_y_step width height dt cy hh hdt _ ih.2⟩

/-- Claim C8 (amended): a vortex advances once per frame (before the
sub-step loop) by its own velocity times the frame dt, with the crossed
velocity component exactly negated when the new position leaves
[0, width] or [0, height]; consequently over any number of frames a
vortex starting inside the frame keeps its speed per axis and its
position never escapes [0, width] x [0, height] by more than the
per-axis tolerance |velocity| * dt. -/
theorem C8_vortex_drift_amended (width height dt : ℝ) (hw : 0 ≤ width)
    (hh : 0 ≤ height) (hdt : 0 < dt) (v : Vortex)
    (hx0 : 0 ≤ v.position.x) (hx1 : v.position.x ≤ width)
    (hy0 : 0 ≤ v.position.y) (hy1 : v.position.y ≤ height) (n : ℕ) :
    (updateVortex width height dt v).position = v.position + dt • v.velocity ∧
    updateVortices width height dt [v] = [updateVortex width height dt v] ∧
    -(|v.velocity.x| * dt) ≤ ((updateVortex width height dt)^[n] v).position.x ∧
    ((updateVortex width height dt)^[n] v).position.x ≤ width + |v.velocity.x| * dt ∧
    -(|v.velocity.y| * dt) ≤ ((updateVortex width height dt)^[n] v).position.y ∧
    ((updateVortex width height dt)^[n] v).position.y ≤ height + |v.velocity.y| * dt ∧
    |((updateVortex width height dt)^[n] v).velocity.x| = |v.velocity.x| ∧
    |((updateVortex width height dt)^[n] v).velocity.y| = |v.velocity.y| := by
  have hcx : 0 ≤ |v.velocity.x| * dt := by positivity
  have hcy : 0 ≤ |v.velocity.y| * dt := by positivity
  have hx : BInv width dt |v.velocity.x| v.position.x v.velocity.x := by
    refine ⟨rfl, by nlinarith, by nlinarith, ?_, ?_⟩
    · intro hc
      exact absurd hc (not_lt.mpr hx1)
    · intro hc
      exact absurd hc (not_lt.mpr hx0)
  have hy : BInv height dt |v.velocity.y| v.position.y v.velocity.y := by
    refine ⟨rfl, by nlinarith, by nlinarith, ?_, ?_⟩
    · intro hc
      exact absurd hc (not_lt.mpr hy1)
    · intro hc
      exact absurd hc (not_lt.mpr hy0)
  have hiter := iterate_vortex_BInv width height dt |v.velocity.x| |v.velocity.y|
    hw hh hdt v hx hy n
  obtain ⟨⟨hcx', hxlo, hxhi, _, _⟩, ⟨hcy', hylo, hyhi, _, _⟩⟩ := hiter
  refine ⟨rfl, rfl, ?_, ?_, ?_, ?_, hcx', hcy'⟩
  · calc -(|v.velocity.x| * dt) = -(|v.velocity.x| * dt) := rfl
      _ ≤ _ := hxlo
  · exact hxhi
  · exact hylo
  · exact hyhi

/-- Witness for C8_vortex_drift_amended: a vortex starting at (50, 50)
with velocity (150, 0) in a 100 x 100 frame stays within tolerance
5 = 150 * (1/30) of the frame after 7 frames. -/
theorem C8_vortex_drift_amended_witness :
    -(|(150 : ℝ)| * (1/30))
        ≤ ((updateVortex 100 100 (1/30))^[7]
            ⟨⟨50, 50⟩, ⟨150, 0⟩, 1, 10, 0⟩).position.x ∧
    ((updateVortex 100 100 (1/30))^[7]
        ⟨⟨50, 50⟩, ⟨150, 0⟩, 1, 10, 0⟩).position.x ≤ 100 + |(150 : ℝ)| * (1/30) := by
  have h := C8_vortex_drift_amended 100 100 (1/30) (by norm_num) (by norm_num)
    (by norm_num) ⟨⟨50, 50⟩, ⟨150, 0⟩, 1, 10, 0⟩ (by norm_num) (by norm_num)
    (by norm_num) (by norm_num) 7
  exact ⟨h.2.2.1, h.2.2.2.1⟩

/-! Emission layer: lemmas about emit_particle and the emission loop. -/

theorem emitFields_refl (w : World) : emitFields w w :=
  ⟨rfl, rfl, rfl, rfl, rfl, rfl, rfl, rfl, rfl, rfl, rfl⟩

theorem emitFields_trans {a b c : World} (h1 : emitFields a b) (h2 : emitFields b c) :
    emitFields a c := by
  obtain ⟨x1, x2, x3, x4, x5, x6, x7, x8, x9, x10, x11⟩ := h1
  obtain ⟨y1, y2, y3, y4, y5, y6, y7, y8, y9, y10, y11⟩ := h2
  exact ⟨y1.trans x1, y2.trans x2, y3.trans x3, y4.trans x4, y5.trans x5, y6.trans x6,
    y7.trans x7, y8.trans x8, y9.trans x9, y10.trans x10, y11.trans x11⟩

theorem emitParticle_fields (em : Emitter) (h wd : ℚ) (w : World) :
    emitFields w (emitParticle em h wd w) :=
  ⟨rfl, rfl, rfl, rfl, rfl, rfl, rfl, rfl, rfl, rfl, rfl⟩

theorem emitParticle_total (em : Emitter) (h wd : ℚ) (w : World) :
    (emitParticle em h wd w).totalParticlesEmitted = w.totalParticlesEmitted + 1 := rfl

theorem emitParticle_particles (em : Emitter) (h wd : ℚ) (w : World) :
    (emitParticle em h wd w).particles
      = w.particles ++ [emittedParticle em h wd w] := rfl

theorem emitLoop_capped (em : Emitter) (h wd acc : ℚ) (w : World)
    (hcap : w.maxParticles ≤ w.totalParticlesEmitted) :
    emitLoop em h wd acc w = (acc, w) := by
  unfold emitLoop
  rw [dif_neg]
  rintro ⟨h1, h2⟩
  omega

theorem emitLoop_spec (em : Emitter) (h wd : ℚ) :
    ∀ (n : ℕ) (acc : ℚ) (w : World), (⌊acc⌋).toNat = n →
      emitFields w (emitLoop em h wd acc w).2 ∧
      (w.totalParticlesEmitted ≤ (emitLoop em h wd acc w).2.totalParticlesEmitted ∧
        (w.totalParticlesEmitted ≤ w.maxParticles →
          (emitLoop em h wd acc w).2.totalParticlesEmitted ≤ w.maxParticles)) ∧
      (0 ≤ acc → 0 ≤ (emitLoop em h wd acc w).1) ∧
      (w.totalParticlesEmitted ≤ w.maxParticles →
        ((emitLoop em h wd acc w).1 < 1 ∨
          (emitLoop em h wd acc w).2.totalParticlesEmitted = w.maxParticles)) ∧
      (0 ≤ acc → (emitLoop em h wd acc w).1 < 1 →
        (emitLoop em h wd acc w).1 = acc - ⌊acc⌋ ∧
        (emitLoop em h wd acc w).2.totalParticlesEmitted
          = w.totalParticlesEmitted + (⌊acc⌋).toNat) := by
  intro n
  induction n with
  | zero =>
      intro acc w hn
      have hfl : ⌊acc⌋ ≤ 0 := by omega
      have hlt : acc < 1 := by
        have h1 := Int.lt_floor_add_one acc
        have h2 : ((⌊acc⌋ : ℤ) : ℚ) ≤ 0 := by exact_mod_cast hfl
        linarith
      have heq : emitLoop em h wd acc w = (acc, w) := by
        unfold emitLoop
        rw [dif_neg]
        rintro ⟨ha, _⟩
        linarith
      rw [heq]
      refine ⟨emitFields_refl w, ⟨le_rfl, fun hc => hc⟩, fun ha => ha,
        fun _ => Or.inl hlt, ?_⟩
      intro ha _
      have hfl0 : ⌊acc⌋ = 0 := le_antisymm hfl (Int.floor_nonneg.mpr ha)
      constructor
      · rw [hfl0]
        push_cast
        ring
      · rw [hfl0]
        simp
  | succ n ih =>
      intro acc w hn
      by_cases hcond : 1 ≤ acc ∧ w.totalParticlesEmitted < w.maxParticles
      · have heq : emitLoop em h wd acc w
            = emitLoop em h wd (acc - 1) (emitParticle em h wd w) := by
          conv_lhs => unfold emitLoop
          rw [dif_pos hcond]
        have hfl1 : (1 : ℤ) ≤ ⌊acc⌋ := by
          exact_mod_cast Int.le_floor.mpr (by exact_mod_cast hcond.1)
        have hsub : ⌊acc - (1 : ℚ)⌋ = ⌊acc⌋ - 1 := by
          have h3 := Int.floor_sub_int acc 1
          simp only [Int.cast_one] at h3
          exact h3
        have hfln : (⌊acc - (1 : ℚ)⌋).toNat = n := by omega
        have hrec := ih (acc - 1) (emitParticle em h wd w) hfln
        rw [heq]
        obtain ⟨rf, ⟨rmono, rcap⟩, rnn, rexit, rext⟩ := hrec
        have htot : (emitParticle em h wd w).totalParticlesEmitted
            = w.totalParticlesEmitted + 1 := rfl
        have hmax : (emitParticle em h wd w).maxParticles = w.maxParticles := rfl
        refine ⟨emitFields_trans (emitParticle_fields em h wd w) rf, ⟨?_, ?_⟩, ?_, ?_, ?_⟩
        · rw [htot] at rmono
          omega
        · intro hc
          have h1 : (emitParticle em h wd w).totalParticlesEmitted
              ≤ (emitParticle em h wd w).maxParticles := by
            rw [htot, hmax]
            omega
          have h2 := rcap h1
          rw [hmax] at h2
          exact h2
        · intro ha
          exact rnn (by linarith)
        · intro hc
          have h1 : (emitParticle em h wd w).totalParticlesEmitted
              ≤ (emitParticle em h wd w).maxParticles := by
            rw [htot, hmax]
            omega
          rcases rexit h1 with h2 | h2
          · exact Or.inl h2
          · rw [hmax] at h2
            exact Or.inr h2
        · intro ha hlt
          obtain ⟨e1, e2⟩ := rext (by linarith) hlt
          constructor
          · rw [e1, hsub]
            push_cast
            ring
          · rw [e2, htot]
            omega
      · have heq : emitLoop em h wd acc w = (acc, w) := by
          unfold emitLoop
          rw [dif_neg hcond]
        rw [heq]
        refine ⟨emitFields_refl w, ⟨le_rfl, fun hc => hc⟩, fun ha => ha, ?_, ?_⟩
        · intro hc
          rcases not_and_or.mp hcond with hna | hnt
          · exact Or.inl (by linarith [not_le.mp hna])
          · exact Or.inr (le_antisymm hc (not_lt.mp hnt))
        · intro ha hlt
          have hfl0 : ⌊acc⌋ = 0 := by
            have h1 : (0 : ℤ) ≤ ⌊acc⌋ := Int.floor_nonneg.mpr ha
            have h2 : ⌊acc⌋ < 1 := Int.floor_lt.mpr (by exact_mod_cast hlt)
            omega
          constructor
          · rw [hfl0]
            push_cast
            ring
          · rw [hfl0]
            simp

theorem emitAll_nil (h wd s : ℚ) (accs : List ℚ) (w : World) :
    emitAll h wd s [] accs w = ([], w) := rfl

theorem emitAll_nil_accs (h wd s : ℚ) (em : Emitter) (ems : List Emitter) (w : World) :
    emitAll h wd s (em :: ems) [] w = ([], w) := rfl

theorem emitAll_cons (h wd s : ℚ) (em : Emitter) (ems : List Emitter) (a : ℚ)
    (accs : List ℚ) (w : World) :
    emitAll h wd s (em :: ems) (a :: accs) w
      = ((emitLoop em h wd (a + em.emissionRate * s) w).1 ::
          (emitAll h wd s ems accs
            (emitLoop em h wd (a + em.emissionRate * s) w).2).1,
         (emitAll h wd s ems accs
           (emitLoop em h wd (a + em.emissionRate * s) w).2).2) := rfl

theorem emitAll_capped (h wd s : ℚ) :
    ∀ (ems : List Emitter) (accs : List ℚ) (w : World),
      w.maxParticles ≤ w.totalParticlesEmitted →
      emitAll h wd s ems accs w
        = (List.zipWith (fun em a => a + em.emissionRate * s) ems accs, w) := by
  intro ems
  induction ems with
  | nil =>
      intro accs w hcap
      rw [emitAll_nil]
      simp
  | cons em rest ih =>
      intro accs w hcap
      cases accs with
      | nil =>
          rw [emitAll_nil_accs]
          simp
      | cons a accs =>
          rw [emitAll_cons, emitLoop_capped em h wd _ w hcap]
          rw [ih accs w hcap]
          simp

theorem emitAll_spec (h wd s : ℚ) :
    ∀ (ems : List Emitter) (accs : List ℚ) (w : World),
      emitFields w (emitAll h wd s ems accs w).2 ∧
      w.totalParticlesEmitted ≤ (emitAll h wd s ems accs w).2.totalParticlesEmitted ∧
      (w.totalParticlesEmitted ≤ w.maxParticles →
        (emitAll h wd s ems accs w).2.totalParticlesEmitted ≤ w.maxParticles) := by
  intro ems
  induction ems with
  | nil =>
      intro accs w
      rw [emitAll_nil]
      exact ⟨emitFields_refl w, le_rfl, fun hc => hc⟩
  | cons em rest ih =>
      intro accs w
      cases accs with
      | nil =>
          rw [emitAll_nil_accs]
          exact ⟨emitFields_refl w, le_rfl, fun hc => hc⟩
      | cons a accs =>
          rw [emitAll_cons]
          have hl := emitLoop_spec em h wd (⌊a + em.emissionRate * s⌋).toNat
            (a + em.emissionRate * s) w rfl
          have ha := ih accs (emitLoop em h wd (a + em.emissionRate * s) w).2
          refine ⟨emitFields_trans hl.1 ha.1, ?_, ?_⟩
          · exact le_trans hl.2.1.1 ha.2.1
          · intro hc
            have h1 : (emitLoop em h wd (a + em.emissionRate * s) w).2.totalParticlesEmitted
                ≤ (emitLoop em h wd (a + em.emissionRate * s) w).2.maxParticles := by
              rw [hl.1.1]
              exact hl.2.1.2 hc
            have h2 := ha.2.2 h1
            rw [hl.1.1] at h2
            exact h2

/-! Sub-step layer: life data is untouched by motion, and an emission
pass with the cap already reached only grows the accumulators. -/

theorem lifeData_space (g : Vec2) (s : ℚ) (p : Particle) :
    lifeData (spaceStepBody g s p) = lifeData p := rfl

theorem checkCollision_lifeData (p : Particle) (oldPos newPos : Vec2) :
    ∀ segs, lifeData (checkParticleMaskCollision p oldPos newPos segs) = lifeData p := by
  intro segs
  induction segs with
  | nil => rfl
  | cons s rest ih =>
      show lifeData (if lineSegmentIntersect oldPos newPos s.a s.b then
        collide p oldPos newPos s else checkParticleMaskCollision p oldPos newPos rest)
        = lifeData p
      by_cases hc : lineSegmentIntersect oldPos newPos s.a s.b
      · rw [if_pos hc]
        rfl
      · rw [if_neg hc]
        exact ih

theorem lifeData_motion (respect : Bool) (segs : List Segment) (vor : List Vortex)
    (wel : List Well) (m : ℝ) (s : ℚ) (p : Particle) :
    lifeData (particleMotionStep respect segs vor wel m s p) = lifeData p := by
  have h1 := applyVortexForce_fields vor p
  have h2 := applyGravityWellForce_spec m wel (applyVortexForce vor p)
  have hp2 : lifeData (applyGravityWellForce m wel (applyVortexForce vor p))
      = lifeData p := by
    unfold lifeData
    rw [h2.2.2.2.1, h2.2.2.2.2.1, h1.2.2.1, h1.2.2.2.1]
  show lifeData (if respect = true then
      checkParticleMaskCollision (applyGravityWellForce m wel (applyVortexForce vor p))
        (applyGravityWellForce m wel (applyVortexForce vor p)).position
        ((applyGravityWellForce m wel (applyVortexForce vor p)).position +
          (s : ℝ) • (applyGravityWellForce m wel (applyVortexForce vor p)).velocity) segs
    else applyGravityWellForce m wel (applyVortexForce vor p)) = lifeData p
  cases respect with
  | false =>
      rw [if_neg Bool.false_ne_true]
      exact hp2
  | true =>
      rw [if_pos rfl, checkCollision_lifeData]
      exact hp2

theorem map_lifeData_double (f g : Particle → Particle)
    (hf : ∀ p, lifeData (f p) = lifeData p) (hg : ∀ p, lifeData (g p) = lifeData p) :
    ∀ l : List Particle, ((l.map f).map g).map lifeData = l.map lifeData := by
  intro l
  induction l with
  | nil => rfl
  | cons p rest ih =>
      simp only [List.map_cons]
      rw [hg (f p), hf p, ih]

theorem map_lifeData_filter_cull (t : ℚ) :
    ∀ l : List Particle,
      (l.filter (fun p => decide (t - p.creationTime < p.lifetime))).map lifeData
        = (l.map lifeData).filter (fun c => decide (t - c.1 < c.2)) := by
  intro l
  induction l with
  | nil => rfl
  | cons p rest ih =>
      simp only [List.filter_cons, List.map_cons]
      by_cases hq : t - p.creationTime < p.lifetime
      · simp [lifeData, hq, ih]
      · simp [lifeData, hq, ih]

theorem subStep_eq (height width : ℚ) (respect : Bool) (s : ℚ) (w : World) :
    subStep height width respect s w
      = { (emitAll height width s w.emitters w.particlesToEmit w).2 with
          particlesToEmit := (emitAll height width s w.emitters w.particlesToEmit w).1,
          particles :=
            (((emitAll height width s w.emitters w.particlesToEmit w).2).particles.map
              (particleMotionStep respect
                (emitAll height width s w.emitters w.particlesToEmit w).2.maskShapes
                (emitAll height width s w.emitters w.particlesToEmit w).2.vortices
                (emitAll height width s w.emitters w.particlesToEmit w).2.gravityWells
                (emitAll height width s w.emitters
                  w.particlesToEmit w).2.wellStrengthMultiplier
                s)).map
              (spaceStepBody
                (emitAll height width s w.emitters w.particlesToEmit w).2.spaceGravity s),
          spaceCurrDt := s,
          clock := (emitAll height width s w.emitters w.particlesToEmit w).2.clock + s } :=
  rfl

theorem subStep_capped_meta (height width : ℚ) (respect : Bool) (s : ℚ) (w : World)
    (hcap : w.maxParticles ≤ w.totalParticlesEmitted) :
    (subStep height width respect s w).particles.map lifeData
        = w.particles.map lifeData ∧
    (subStep height width respect s w).totalParticlesEmitted
        = w.totalParticlesEmitted ∧
    (subStep height width respect s w).maxParticles = w.maxParticles ∧
    (subStep height width respect s w).emitters = w.emitters ∧
    (subStep height width respect s w).clock = w.clock + s ∧
    (subStep height width respect s w).spaceCurrDt = s ∧
    (subStep height width respect s w).particlesToEmit
      = List.zipWith (fun em a => a + em.emissionRate * s) w.emitters
          w.particlesToEmit := by
  have he := emitAll_capped height width s w.emitters w.particlesToEmit w hcap
  have hs : subStep height width respect s w
      = { w with
          particlesToEmit := List.zipWith (fun em a => a + em.emissionRate * s)
            w.emitters w.particlesToEmit,
          particles :=
            ((w.particles.map (particleMotionStep respect w.maskShapes w.vortices
              w.gravityWells w.wellStrengthMultiplier s)).map
              (spaceStepBody w.spaceGravity s)),
          spaceCurrDt := s,
          clock := w.clock + s } := by
    rw [subStep_eq, he]
  rw [hs]
  refine ⟨?_, rfl, rfl, rfl, rfl, rfl, rfl⟩
  exact map_lifeData_double _ _
    (fun p => lifeData_motion respect w.maskShapes w.vortices w.gravityWells
      w.wellStrengthMultiplier s p)
    (fun p => lifeData_space w.spaceGravity s p) w.particles

theorem subStep_iter_capped_meta (height width : ℚ) (respect : Bool) (s : ℚ) :
    ∀ (k : ℕ) (w : World), w.maxParticles ≤ w.totalParticlesEmitted →
      ((subStep height width respect s)^[k] w).particles.map lifeData
          = w.particles.map lifeData ∧
      ((subStep height width respect s)^[k] w).totalParticlesEmitted
          = w.totalParticlesEmitted ∧
      ((subStep height width respect s)^[k] w).maxParticles = w.maxParticles ∧
      ((subStep height width respect s)^[k] w).emitters = w.emitters ∧
      ((subStep height width respect s)^[k] w).clock = w.clock + k * s ∧
      (0 < k → ((subStep height width respect s)^[k] w).spaceCurrDt = s) := by
  intro k
  induction k with
  | zero =>
      intro w hcap
      refine ⟨rfl, rfl, rfl, rfl, by simp, fun hk => absurd hk (lt_irrefl 0)⟩
  | succ k ih =>
      intro w hcap
      rw [Function.iterate_succ_apply']
      have hz := ih w hcap
      have hcap2 : ((subStep height width respect s)^[k] w).maxParticles
          ≤ ((subStep height width respect s)^[k] w).totalParticlesEmitted := by
        rw [hz.2.2.1, hz.2.1]
        exact hcap
      have hstep := subStep_capped_meta height width respect s
        ((subStep height width respect s)^[k] w) hcap2
      refine ⟨?_, ?_, ?_, ?_, ?_, fun _ => hstep.2.2.2.2.2.1⟩
      · rw [hstep.1, hz.1]
      · rw [hstep.2.1, hz.2.1]
      · rw [hstep.2.2.1, hz.2.2.1]
      · rw [hstep.2.2.2.1, hz.2.2.2.1]
      · rw [hstep.2.2.2.2.1, hz.2.2.2.2.1]
        push_cast
        ring

theorem updatePre_proj (dt height width : ℚ) (segs : List Segment) (respect : Bool)
    (w : World) :
    (if respect then { w with maskShapes := segs } else w).particles = w.particles ∧
    (if respect then { w with maskShapes := segs } else w).totalParticlesEmitted
        = w.totalParticlesEmitted ∧
    (if respect then { w with maskShapes := segs } else w).maxParticles
        = w.maxParticles ∧
    (if respect then { w with maskShapes := segs } else w).emitters = w.emitters ∧
    (if respect then { w with maskShapes := segs } else w).clock = w.clock ∧
    (if respect then { w with maskShapes := segs } else w).particlesToEmit
        = w.particlesToEmit := by
  cases respect with
  | false => exact ⟨rfl, rfl, rfl, rfl, rfl, rfl⟩
  | true =>
      rw [if_pos rfl]
      exact ⟨rfl, rfl, rfl, rfl, rfl, rfl⟩

theorem updateParticleSystem_capped_meta (dt height width : ℚ) (segs : List Segment)
    (respect : Bool) (w : World)
    (hcap : w.maxParticles ≤ w.totalParticlesEmitted) :
    (updateParticleSystem dt height width segs respect w).particles.map lifeData
        = (w.particles.map lifeData).filter (fun c => decide (dt / 5 - c.1 < c.2)) ∧
    (updateParticleSystem dt height width segs respect w).totalParticlesEmitted
        = w.totalParticlesEmitted ∧
    (updateParticleSystem dt height width segs respect w).maxParticles
        = w.maxParticles ∧
    (updateParticleSystem dt height width segs respect w).emitters = w.emitters ∧
    (updateParticleSystem dt height width segs respect w).clock = w.clock + dt ∧
    (updateParticleSystem dt height width segs respect w).spaceCurrDt = dt / 5 := by
  have hpre := updatePre_proj dt height width segs respect w
  set w0 := if respect then { w with maskShapes := segs } else w with hw0
  set w1 : World := { w0 with
    vortices := updateVortices (width : ℝ) (height : ℝ) ((dt : ℚ) : ℝ) w0.vortices }
    with hw1
  have hw1cap : w1.maxParticles ≤ w1.totalParticlesEmitted := by
    show w0.maxParticles ≤ w0.totalParticlesEmitted
    rw [hpre.2.2.1, hpre.2.1]
    exact hcap
  have hiter := subStep_iter_capped_meta height width respect (dt / 5) 5 w1 hw1cap
  have hu : updateParticleSystem dt height width segs respect w
      = { (subStep height width respect (dt / 5))^[5] w1 with
          particles := ((subStep height width respect (dt / 5))^[5] w1).particles.filter
            (fun p => decide
              (((subStep height width respect (dt / 5))^[5] w1).spaceCurrDt
                - p.creationTime < p.lifetime)) } := rfl
  have hcurr : ((subStep height width respect (dt / 5))^[5] w1).spaceCurrDt = dt / 5 :=
    hiter.2.2.2.2.2 (by norm_num)
  refine ⟨?_, ?_, ?_, ?_, ?_, ?_⟩
  · rw [hu]
    show (((subStep height width respect (dt / 5))^[5] w1).particles.filter
        (fun p => decide
          (((subStep height width respect (dt / 5))^[5] w1).spaceCurrDt
            - p.creationTime < p.lifetime))).map lifeData = _
    rw [hcurr, map_lifeData_filter_cull, hiter.1]
    show (w0.particles.map lifeData).filter _ = _
    rw [hpre.1]
  · rw [hu]
    show ((subStep height width respect (dt / 5))^[5] w1).totalParticlesEmitted = _
    rw [hiter.2.1]
    show w0.totalParticlesEmitted = _
    rw [hpre.2.1]
  · rw [hu]
    show ((subStep height width respect (dt / 5))^[5] w1).maxParticles = _
    rw [hiter.2.2.1]
    show w0.maxParticles = _
    rw [hpre.2.2.1]
  · rw [hu]
    show ((subStep height width respect (dt / 5))^[5] w1).emitters = _
    rw [hiter.2.2.2.1]
    show w0.emitters = _
    rw [hpre.2.2.2.1]
  · rw [hu]
    show ((subStep height width respect (dt / 5))^[5] w1).clock = _
    rw [hiter.2.2.2.2.1]
    show w0.clock + (5 : ℕ) * (dt / 5) = _
    rw [hpre.2.2.2.2.1]
    push_cast
    ring
  · rw [hu]
    exact hcurr

/-! Claim C1: the culling clock. -/

theorem lifeData_emitted (em : Emitter) (h wd : ℚ) (w : World) :
    lifeData (emittedParticle em h wd w) = (w.spaceCurrDt, w.particleLifetime) := rfl

theorem setupC1_facts :
    setupC1.particles.map lifeData = [(0, 1/10)] ∧
    setupC1.totalParticlesEmitted = 1 ∧
    setupC1.maxParticles = 1 ∧
    setupC1.clock = 0 := by
  have hsetup : setupC1 = (emitParticle em0 100 100)^[1]
      { particles := [], particlesToEmit := [0], totalParticlesEmitted := 0,
        maxParticles := 1, particleLifetime := 1/10, emitters := [em0], vortices := [],
        gravityWells := [], wellStrengthMultiplier := 1, spaceGravity := ⟨0, 0⟩,
        maskShapes := [], spaceCurrDt := 0, clock := 0, rng := fun _ => 0,
        rngIdx := 0 } := by
    unfold setupC1 setupParticleSystem
    norm_num [em0, List.replicate]
  rw [hsetup, Function.iterate_one]
  refine ⟨?_, rfl, rfl, rfl⟩
  rw [emitParticle_particles]
  simp [lifeData_emitted]

/-- Claim C1 at its failing input (a code bug): the culling step
compares against Space.current_time_step, which is the dt of the most
recent sub-step (a constant 1/150 here), not the monotonic simulation
clock, so particles with true age at or past their lifetime are never
culled.  With one particle created at clock 0 with lifetime 0.1 s and
rate-0 emitters, after three frames the ghost clock reaches 0.1 — the
particle age equals its lifetime — yet the particle is still in the
live collection (and would be rasterized). -/
theorem C1_culling_never_fires :
    runC1.particles.map lifeData = [(0, 1/10)] ∧
    runC1.spaceCurrDt = 1/150 ∧
    runC1.clock = 1/10 ∧
    ¬(runC1.clock - 0 < (1/10 : ℚ)) := by
  have step : ∀ w : World, w.particles.map lifeData = [(0, 1/10)] →
      w.totalParticlesEmitted = 1 → w.maxParticles = 1 →
      (updateParticleSystem (1/30) 100 100 [] false w).particles.map lifeData
          = [(0, 1/10)] ∧
      (updateParticleSystem (1/30) 100 100 [] false w).totalParticlesEmitted = 1 ∧
      (updateParticleSystem (1/30) 100 100 [] false w).maxParticles = 1 ∧
      (updateParticleSystem (1/30) 100 100 [] false w).clock = w.clock + 1/30 ∧
      (updateParticleSystem (1/30) 100 100 [] false w).spaceCurrDt = 1/150 := by
    intro w hm ht hx
    have hcap : w.maxParticles ≤ w.totalParticlesEmitted := by
      rw [ht, hx]
    have H := updateParticleSystem_capped_meta (1/30) 100 100 [] false w hcap
    refine ⟨?_, by rw [H.2.1, ht], by rw [H.2.2.1, hx], H.2.2.2.2.1, ?_⟩
    · rw [H.1, hm]
      simp [List.filter_cons, List.filter_nil]
      norm_num
    · rw [H.2.2.2.2.2]
      norm_num
  obtain ⟨hm0, ht0, hx0, hc0⟩ := setupC1_facts
  have s1 := step setupC1 hm0 ht0 hx0
  have s2 := step _ s1.1 s1.2.1 s1.2.2.1
  have s3 := step _ s2.1 s2.2.1 s2.2.2.1
  have hrun : runC1 = updateParticleSystem (1/30) 100 100 [] false
      (updateParticleSystem (1/30) 100 100 [] false
        (updateParticleSystem (1/30) 100 100 [] false setupC1)) := rfl
  rw [hrun]
  refine ⟨s3.1, s3.2.2.2.2, ?_, ?_⟩
  · rw [s3.2.2.2.1, s2.2.2.2.1, s1.2.2.2.1, hc0]
    norm_num
  · rw [s3.2.2.2.1, s2.2.2.2.1, s1.2.2.2.1, hc0]
    norm_num

/-! Claim C4: the fractional emission accumulator. -/

theorem emitLoop_cap_after_one (em : Emitter) (h wd acc : ℚ) (w : World)
    (h1 : 1 ≤ acc) (h3 : w.totalParticlesEmitted < w.maxParticles)
    (h4 : w.maxParticles ≤ w.totalParticlesEmitted + 1) :
    emitLoop em h wd acc w = (acc - 1, emitParticle em h wd w) := by
  conv_lhs => unfold emitLoop
  rw [dif_pos ⟨h1, h3⟩]
  exact emitLoop_capped em h wd (acc - 1) (emitParticle em h wd w) h4

theorem firstStep_C4 (w : World) (hE : w.emitters = [emFast])
    (hA : w.particlesToEmit = [0]) (hT : w.totalParticlesEmitted = 0)
    (hM : w.maxParticles = 1) :
    (subStep 100 100 false ((1/30 : ℚ)/5) w).particlesToEmit = [3] ∧
    (subStep 100 100 false ((1/30 : ℚ)/5) w).totalParticlesEmitted = 1 ∧
    (subStep 100 100 false ((1/30 : ℚ)/5) w).maxParticles = 1 ∧
    (subStep 100 100 false ((1/30 : ℚ)/5) w).emitters = [emFast] := by
  have hacc : (0 : ℚ) + emFast.emissionRate * ((1/30 : ℚ)/5) = 4 := by
    norm_num [emFast, em0]
  have hemit : emitAll 100 100 ((1/30 : ℚ)/5) w.emitters w.particlesToEmit w
      = ([3], emitParticle emFast 100 100 w) := by
    rw [hE, hA, emitAll_cons, hacc,
      emitLoop_cap_after_one emFast 100 100 4 w (by norm_num)
        (by rw [hT, hM]; norm_num) (by rw [hT, hM])]
    norm_num [emitAll_nil]
  refine ⟨?_, ?_, ?_, ?_⟩
  · show (emitAll 100 100 ((1/30 : ℚ)/5) w.emitters w.particlesToEmit w).1 = [3]
    rw [hemit]
  · show (emitAll 100 100 ((1/30 : ℚ)/5) w.emitters
        w.particlesToEmit w).2.totalParticlesEmitted = 1
    rw [hemit, emitParticle_total, hT]
  · show (emitAll 100 100 ((1/30 : ℚ)/5) w.emitters
        w.particlesToEmit w).2.maxParticles = 1
    rw [hemit]
    show w.maxParticles = 1
    exact hM
  · show (emitAll 100 100 ((1/30 : ℚ)/5) w.emitters w.particlesToEmit w).2.emitters
        = [emFast]
    rw [hemit]
    show w.emitters = [emFast]
    exact hE

theorem capStep_C4 (w : World) (a : ℚ) (hE : w.emitters = [emFast])
    (hA : w.particlesToEmit = [a]) (hT : w.totalParticlesEmitted = 1)
    (hM : w.maxParticles = 1) :
    (subStep 100 100 false ((1/30 : ℚ)/5) w).particlesToEmit = [a + 4] ∧
    (subStep 100 100 false ((1/30 : ℚ)/5) w).totalParticlesEmitted = 1 ∧
    (subStep 100 100 false ((1/30 : ℚ)/5) w).maxParticles = 1 ∧
    (subStep 100 100 false ((1/30 : ℚ)/5) w).emitters = [emFast] := by
  have hcap : w.maxParticles ≤ w.totalParticlesEmitted := by
    rw [hT, hM]
  have H := subStep_capped_meta 100 100 false ((1/30 : ℚ)/5) w hcap
  refine ⟨?_, by rw [H.2.1, hT], by rw [H.2.2.1, hM], by rw [H.2.2.2.1, hE]⟩
  rw [H.2.2.2.2.2.2, hE, hA]
  simp only [List.zipWith]
  norm_num [emFast, em0]

theorem fiveSubSteps_C4 (w : World) (hE : w.emitters = [emFast])
    (hA : w.particlesToEmit = [0]) (hT : w.totalParticlesEmitted = 0)
    (hM : w.maxParticles = 1) :
    ((subStep 100 100 false ((1/30 : ℚ)/5))^[5] w).particlesToEmit = [19] := by
  have e5 : (subStep 100 100 false ((1/30 : ℚ)/5))^[5] w
      = subStep 100 100 false ((1/30 : ℚ)/5) (subStep 100 100 false ((1/30 : ℚ)/5)
          (subStep 100 100 false ((1/30 : ℚ)/5) (subStep 100 100 false ((1/30 : ℚ)/5)
            (subStep 100 100 false ((1/30 : ℚ)/5) w)))) := rfl
  have b1 := firstStep_C4 w hE hA hT hM
  have b2 := capStep_C4 _ 3 b1.2.2.2 b1.1 b1.2.1 b1.2.2.1
  have b3 := capStep_C4 _ (3 + 4) b2.2.2.2 b2.1 b2.2.1 b2.2.2.1
  have b4 := capStep_C4 _ (3 + 4 + 4) b3.2.2.2 b3.1 b3.2.1 b3.2.2.1
  have b5 := capStep_C4 _ (3 + 4 + 4 + 4) b4.2.2.2 b4.1 b4.2.1 b4.2.2.1
  rw [e5, b5.1]
  norm_num

theorem setupC4_facts :
    setupC4.emitters = [emFast] ∧ setupC4.particlesToEmit = [0] ∧
    setupC4.totalParticlesEmitted = 0 ∧ setupC4.maxParticles = 1 := by
  have hs0 : setupC4
      = { particles := [], particlesToEmit := [0], totalParticlesEmitted := 0,
          maxParticles := 1, particleLifetime := 1/10, emitters := [emFast],
          vortices := [], gravityWells := [], wellStrengthMultiplier := 1,
          spaceGravity := ⟨0, 0⟩, maskShapes := [], spaceCurrDt := 0, clock := 0,
          rng := fun _ => 0, rngIdx := 0 } := by
    unfold setupC4 setupParticleSystem
    norm_num [emFast, em0, List.replicate, Function.iterate_zero_apply]
  rw [hs0]
  exact ⟨rfl, rfl, rfl, rfl⟩

/-- Counterexample for claim C4: with one emitter of rate 600 and the
particle cap at 1, the cap halts emission after the first particle, and
the accumulator is left at 3 after the first emission check and grows
to 19 by the end of the frame — it is not in [0, 1) after an emission
check that the run-wide cap has halted. -/
theorem C4_counterexample :
    (updateParticleSystem (1/30) 100 100 [] false setupC4).particlesToEmit = [19] ∧
    ¬((19 : ℚ) < 1) := by
  have e : (updateParticleSystem (1/30) 100 100 [] false setupC4).particlesToEmit
      = ((subStep 100 100 false ((1/30 : ℚ)/5))^[5]
          { setupC4 with
            vortices := updateVortices ((100 : ℚ) : ℝ) ((100 : ℚ) : ℝ)
              (((1/30 : ℚ)) : ℝ) setupC4.vortices }).particlesToEmit := rfl
  obtain ⟨hE, hA, hT, hM⟩ := setupC4_facts
  refine ⟨?_, by norm_num⟩
  rw [e]
  exact fiveSubSteps_C4 _ hE hA hT hM

theorem emitParticleIter_accs (em : Emitter) (height width : ℚ) :
    ∀ (n : ℕ) (w : World),
      ((emitParticle em height width)^[n] w).particlesToEmit = w.particlesToEmit := by
  intro n
  induction n with
  | zero => intro w; rfl
  | succ n ih =>
      intro w
      rw [Function.iterate_succ_apply']
      show ((emitParticle em height width)^[n] w).particlesToEmit = _
      exact ih w

theorem foldl_emit_accs (height width : ℚ) (cnt : Emitter → ℕ) :
    ∀ (l : List Emitter) (w : World),
      (l.foldl (fun w em => (emitParticle em height width)^[cnt em] w) w).particlesToEmit
        = w.particlesToEmit := by
  intro l
  induction l with
  | nil => intro w; rfl
  | cons em rest ih =>
      intro w
      rw [List.foldl_cons, ih, emitParticleIter_accs]

theorem setup_accs (width height : ℚ) (ems : List Emitter) (pc : ℕ) (lt : ℚ)
    (wind grav : ℝ) (vor : List Vortex) (wel : List Well) (mult : ℝ) (rng : ℕ → ℝ) :
    (setupParticleSystem width height ems pc lt wind grav vor wel mult
      rng).particlesToEmit = List.replicate ems.length 0 := by
  unfold setupParticleSystem
  exact foldl_emit_accs height width
    (fun em => (⌊(pc : ℚ) * em.initialPlume / (ems.length : ℚ)⌋).toNat) ems _

/-- Claim C4 (amended): every accumulator starts at 0 (setup) and
persists in the world state across sub-steps; after an emission check
the accumulator is nonnegative and either lies in [0, 1) or the
run-wide particle cap has been reached (total = max) — in the capped
case the accumulator may stay at 1 or above; when the check does end
below 1, it extracted exactly the whole part: the result is the
fractional part of the post-addition accumulator and exactly
floor(accumulator) particles were emitted. -/
theorem C4_accumulator_amended :
    (∀ (width height : ℚ) (ems : List Emitter) (pc : ℕ) (lt : ℚ) (wind grav : ℝ)
        (vor : List Vortex) (wel : List Well) (mult : ℝ) (rng : ℕ → ℝ),
        (setupParticleSystem width height ems pc lt wind grav vor wel mult
          rng).particlesToEmit = List.replicate ems.length 0) ∧
    (∀ (em : Emitter) (h wd acc : ℚ) (w : World), 0 ≤ acc →
        w.totalParticlesEmitted ≤ w.maxParticles →
        0 ≤ (emitLoop em h wd acc w).1 ∧
        ((emitLoop em h wd acc w).1 < 1 ∨
          (emitLoop em h wd acc w).2.totalParticlesEmitted = w.maxParticles) ∧
        ((emitLoop em h wd acc w).1 < 1 →
          (emitLoop em h wd acc w).1 = acc - ⌊acc⌋ ∧
          (emitLoop em h wd acc w).2.totalParticlesEmitted
            = w.totalParticlesEmitted + (⌊acc⌋).toNat)) := by
  refine ⟨setup_accs, ?_⟩
  intro em h wd acc w ha hc
  have H := emitLoop_spec em h wd (⌊acc⌋).toNat acc w rfl
  exact ⟨H.2.2.1 ha, H.2.2.2.1 hc, fun hlt => H.2.2.2.2 ha hlt⟩

/-- Witness for C4_accumulator_amended: accumulators start at zero for
a one-emitter setup, and an emission check from accumulator 5/2 on a
world with room (0 of 10 particles used) is nonnegative and in [0,1)
or capped. -/
theorem C4_accumulator_amended_witness :
    (setupParticleSystem 100 100 [em0] 5 1 0 0 [] [] 1
        (fun _ => 0)).particlesToEmit = List.replicate 1 0 ∧
    0 ≤ (emitLoop em0 100 100 (5/2) worldDemo10).1 ∧
    ((emitLoop em0 100 100 (5/2) worldDemo10).1 < 1 ∨
      (emitLoop em0 100 100 (5/2) worldDemo10).2.totalParticlesEmitted
        = worldDemo10.maxParticles) := by
  have h2 := C4_accumulator_amended.2 em0 100 100 (5/2) worldDemo10 (by norm_num)
    (by norm_num [worldDemo10, worldDemo])
  exact ⟨C4_accumulator_amended.1 100 100 [em0] 5 1 0 0 [] [] 1 (fun _ => 0),
    h2.1, h2.2.1⟩

/-! Claim C2: the emission cap. -/

theorem emitParticleIter_total (em : Emitter) (height width : ℚ) :
    ∀ (n : ℕ) (w : World),
      ((emitParticle em height width)^[n] w).totalParticlesEmitted
        = w.totalParticlesEmitted + n := by
  intro n
  induction n with
  | zero => intro w; rfl
  | succ n ih =>
      intro w
      rw [Function.iterate_succ_apply']
      show ((emitParticle em height width)^[n] w).totalParticlesEmitted + 1 = _
      rw [ih w]
      omega

theorem emitParticleIter_max (em : Emitter) (height width : ℚ) :
    ∀ (n : ℕ) (w : World),
      ((emitParticle em height width)^[n] w).maxParticles = w.maxParticles := by
  intro n
  induction n with
  | zero => intro w; rfl
  | succ n ih =>
      intro w
      rw [Function.iterate_succ_apply']
      show ((emitParticle em height width)^[n] w).maxParticles = _
      exact ih w

theorem foldl_emit_total (height width : ℚ) (cnt : Emitter → ℕ) :
    ∀ (l : List Emitter) (w : World),
      (l.foldl (fun w em => (emitParticle em height width)^[cnt em] w)
        w).totalParticlesEmitted
        = w.totalParticlesEmitted + (l.map cnt).sum := by
  intro l
  induction l with
  | nil => intro w; rfl
  | cons em rest ih =>
      intro w
      rw [List.foldl_cons]
      show (rest.foldl _ ((emitParticle em height width)^[cnt em] w)).totalParticlesEmitted
          = _
      rw [ih, emitParticleIter_total]
      simp only [List.map_cons, List.sum_cons]
      omega

theorem foldl_emit_max (height width : ℚ) (cnt : Emitter → ℕ) :
    ∀ (l : List Emitter) (w : World),
      (l.foldl (fun w em => (emitParticle em height width)^[cnt em] w) w).maxParticles
        = w.maxParticles := by
  intro l
  induction l with
  | nil => intro w; rfl
  | cons em rest ih =>
      intro w
      rw [List.foldl_cons]
      show (rest.foldl _ ((emitParticle em height width)^[cnt em] w)).maxParticles = _
      rw [ih, emitParticleIter_max]

theorem setup_max (width height : ℚ) (ems : List Emitter) (pc : ℕ) (lt : ℚ)
    (wind grav : ℝ) (vor : List Vortex) (wel : List Well) (mult : ℝ) (rng : ℕ → ℝ) :
    (setupParticleSystem width height ems pc lt wind grav vor wel mult
      rng).maxParticles = pc := by
  unfold setupParticleSystem
  exact foldl_emit_max height width
    (fun em => (⌊(pc : ℚ) * em.initialPlume / (ems.length : ℚ)⌋).toNat) ems _

theorem cnt_le (pc N : ℕ) (em : Emitter) (h0 : 0 ≤ em.initialPlume)
    (h1 : em.initialPlume ≤ 1) :
    (((⌊(pc : ℚ) * em.initialPlume / (N : ℚ)⌋).toNat : ℕ) : ℚ)
      ≤ (pc : ℚ) / (N : ℚ) := by
  rcases Nat.eq_zero_or_pos N with hN | hN
  · subst hN
    simp
  · have hNQ : (0 : ℚ) < (N : ℚ) := by exact_mod_cast hN
    have hq0 : 0 ≤ (pc : ℚ) * em.initialPlume / (N : ℚ) := by positivity
    have hfl : (0 : ℤ) ≤ ⌊(pc : ℚ) * em.initialPlume / (N : ℚ)⌋ :=
      Int.floor_nonneg.mpr hq0
    have e1 : (((⌊(pc : ℚ) * em.initialPlume / (N : ℚ)⌋).toNat : ℕ) : ℚ)
        = ((⌊(pc : ℚ) * em.initialPlume / (N : ℚ)⌋ : ℤ) : ℚ) := by
      exact_mod_cast congrArg (fun z : ℤ => (z : ℚ)) (Int.toNat_of_nonneg hfl)
    rw [e1]
    calc ((⌊(pc : ℚ) * em.initialPlume / (N : ℚ)⌋ : ℤ) : ℚ)
        ≤ (pc : ℚ) * em.initialPlume / (N : ℚ) := Int.floor_le _
      _ ≤ (pc : ℚ) / (N : ℚ) := by
          apply (div_le_div_iff_of_pos_right hNQ).mpr
          nlinarith [Nat.cast_nonneg (α := ℚ) pc]

theorem sum_cnt_le (pc N : ℕ) :
    ∀ l : List Emitter, (∀ em ∈ l, 0 ≤ em.initialPlume ∧ em.initialPlume ≤ 1) →
      (((l.map (fun em =>
          (⌊(pc : ℚ) * em.initialPlume / (N : ℚ)⌋).toNat)).sum : ℕ) : ℚ)
        ≤ (pc : ℚ) * l.length / (N : ℚ) := by
  intro l
  induction l with
  | nil =>
      intro hb
      simp
  | cons em rest ih =>
      intro hb
      have h1 := cnt_le pc N em (hb em (List.mem_cons_self em rest)).1
        (hb em (List.mem_cons_self em rest)).2
      have h2 := ih (fun u hu => hb u (List.mem_cons_of_mem em hu))
      simp only [List.map_cons, List.sum_cons, List.length_cons]
      push_cast
      push_cast at h1 h2
      have e : (pc : ℚ) * ((rest.length : ℚ) + 1) / (N : ℚ)
          = (pc : ℚ) * (rest.length : ℚ) / (N : ℚ) + (pc : ℚ) / (N : ℚ) := by
        ring
      rw [e]
      linarith

theorem setup_total_le (width height : ℚ) (ems : List Emitter) (pc : ℕ) (lt : ℚ)
    (wind grav : ℝ) (vor : List Vortex) (wel : List Well) (mult : ℝ) (rng : ℕ → ℝ)
    (hplume : ∀ em ∈ ems, 0 ≤ em.initialPlume ∧ em.initialPlume ≤ 1) :
    (setupParticleSystem width height ems pc lt wind grav vor wel mult
      rng).totalParticlesEmitted ≤ pc := by
  have htot : (setupParticleSystem width height ems pc lt wind grav vor wel mult
      rng).totalParticlesEmitted
      = 0 + (ems.map (fun em =>
          (⌊(pc : ℚ) * em.initialPlume / (ems.length : ℚ)⌋).toNat)).sum := by
    unfold setupParticleSystem
    exact foldl_emit_total height width
      (fun em => (⌊(pc : ℚ) * em.initialPlume / (ems.length : ℚ)⌋).toNat) ems _
  rw [htot, Nat.zero_add]
  rcases List.eq_nil_or_concat ems with hnil | _
  · subst hnil
    simp
  · rcases Nat.eq_zero_or_pos ems.length with hN | hN
    · rw [List.length_eq_zero] at hN
      subst hN
      simp
    · have hsum := sum_cnt_le pc ems.length ems hplume
      have e : (pc : ℚ) * (ems.length : ℚ) / (ems.length : ℚ) = (pc : ℚ) := by
        rw [mul_div_assoc, div_self (by exact_mod_cast hN.ne'), mul_one]
      rw [e] at hsum
      exact_mod_cast hsum

theorem foldl_emit_id (height width : ℚ) (cnt : Emitter → ℕ) :
    ∀ (l : List Emitter) (w : World), (∀ em ∈ l, cnt em = 0) →
      l.foldl (fun w em => (emitParticle em height width)^[cnt em] w) w = w := by
  intro l
  induction l with
  | nil => intro w _; rfl
  | cons em rest ih =>
      intro w h
      rw [List.foldl_cons]
      show List.foldl _ ((emitParticle em height width)^[cnt em] w) rest = w
      rw [h em (List.mem_cons_self em rest), Function.iterate_zero_apply]
      exact ih w (fun u hu => h u (List.mem_cons_of_mem em hu))

theorem setup_zero (width height : ℚ) (ems : List Emitter) (lt : ℚ) (wind grav : ℝ)
    (vor : List Vortex) (wel : List Well) (mult : ℝ) (rng : ℕ → ℝ) :
    (setupParticleSystem width height ems 0 lt wind grav vor wel mult
        rng).maxParticles = 0 ∧
    (setupParticleSystem width height ems 0 lt wind grav vor wel mult
        rng).totalParticlesEmitted = 0 ∧
    (setupParticleSystem width height ems 0 lt wind grav vor wel mult
        rng).particles = [] := by
  have hid : setupParticleSystem width height ems 0 lt wind grav vor wel mult rng
      = { particles := [], particlesToEmit := List.replicate ems.length 0,
          totalParticlesEmitted := 0, maxParticles := 0, particleLifetime := lt,
          emitters := ems, vortices := vor, gravityWells := wel,
          wellStrengthMultiplier := mult, spaceGravity := ⟨wind, grav⟩,
          maskShapes := [], spaceCurrDt := 0, clock := 0, rng := rng,
          rngIdx := 0 } := by
    unfold setupParticleSystem
    apply foldl_emit_id
    intro em _
    simp
  rw [hid]
  exact ⟨rfl, rfl, rfl⟩

theorem updateParticleSystem_zero (dt height width : ℚ) (segs : List Segment)
    (respect : Bool) (w : World) (hmax : w.maxParticles = 0)
    (htot : w.totalParticlesEmitted = 0) (hpart : w.particles = []) :
    (updateParticleSystem dt height width segs respect w).maxParticles = 0 ∧
    (updateParticleSystem dt height width segs respect w).totalParticlesEmitted = 0 ∧
    (updateParticleSystem dt height width segs respect w).particles = [] := by
  have hcap : w.maxParticles ≤ w.totalParticlesEmitted := by
    rw [hmax, htot]
  have H := updateParticleSystem_capped_meta dt height width segs respect w hcap
  refine ⟨by rw [H.2.2.1, hmax], by rw [H.2.1, htot], ?_⟩
  have h1 : (updateParticleSystem dt height width segs respect w).particles.map lifeData
      = [] := by
    rw [H.1, hpart]
    rfl
  exact List.map_eq_nil_iff.mp h1

theorem subStep_total_spec (height width : ℚ) (respect : Bool) (s : ℚ) (w : World) :
    w.totalParticlesEmitted ≤ (subStep height width respect s w).totalParticlesEmitted ∧
    (w.totalParticlesEmitted ≤ w.maxParticles →
      (subStep height width respect s w).totalParticlesEmitted ≤ w.maxParticles) ∧
    (subStep height width respect s w).maxParticles = w.maxParticles := by
  have he := emitAll_spec height width s w.emitters w.particlesToEmit w
  refine ⟨?_, ?_, ?_⟩
  · show w.totalParticlesEmitted ≤ (emitAll height width s w.emitters
      w.particlesToEmit w).2.totalParticlesEmitted
    exact he.2.1
  · intro hc
    show (emitAll height width s w.emitters
      w.particlesToEmit w).2.totalParticlesEmitted ≤ w.maxParticles
    exact he.2.2 hc
  · show (emitAll height width s w.emitters w.particlesToEmit w).2.maxParticles
        = w.maxParticles
    exact he.1.1

theorem subStep_iter_total (height width : ℚ) (respect : Bool) (s : ℚ) :
    ∀ (k : ℕ) (w : World),
      w.totalParticlesEmitted
          ≤ ((subStep height width respect s)^[k] w).totalParticlesEmitted ∧
      (w.totalParticlesEmitted ≤ w.maxParticles →
        ((subStep height width respect s)^[k] w).totalParticlesEmitted
          ≤ w.maxParticles) ∧
      ((subStep height width respect s)^[k] w).maxParticles = w.maxParticles := by
  intro k
  induction k with
  | zero => intro w; exact ⟨le_rfl, fun hc => hc, rfl⟩
  | succ k ih =>
      intro w
      rw [Function.iterate_succ_apply']
      have hz := ih w
      have hstep := subStep_total_spec height width respect s
        ((subStep height width respect s)^[k] w)
      refine ⟨le_trans hz.1 hstep.1, ?_, by rw [hstep.2.2, hz.2.2]⟩
      intro hc
      have h1 : ((subStep height width respect s)^[k] w).totalParticlesEmitted
          ≤ ((subStep height width respect s)^[k] w).maxParticles := by
        rw [hz.2.2]
        exact hz.2.1 hc
      have h2 := hstep.2.1 h1
      rw [hz.2.2] at h2
      exact h2

theorem updateParticleSystem_total_spec (dt height width : ℚ) (segs : List Segment)
    (respect : Bool) (w : World) :
    w.totalParticlesEmitted
        ≤ (updateParticleSystem dt height width segs respect w).totalParticlesEmitted ∧
    (w.totalParticlesEmitted ≤ w.maxParticles →
      (updateParticleSystem dt height width segs respect w).totalParticlesEmitted
        ≤ w.maxParticles) ∧
    (updateParticleSystem dt height width segs respect w).maxParticles
        = w.maxParticles := by
  have hpre := updatePre_proj dt height width segs respect w
  have hiter := subStep_iter_total height width respect (dt / 5) 5
    { (if respect then { w with maskShapes := segs } else w) with
      vortices := updateVortices (width : ℝ) (height : ℝ) ((dt : ℚ) : ℝ)
        (if respect then { w with maskShapes := segs } else w).vortices }
  have e1 : (updateParticleSystem dt height width segs respect w).totalParticlesEmitted
      = ((subStep height width respect (dt / 5))^[5]
          { (if respect then { w with maskShapes := segs } else w) with
            vortices := updateVortices (width : ℝ) (height : ℝ) ((dt : ℚ) : ℝ)
              (if respect then { w with maskShapes := segs }
                else w).vortices }).totalParticlesEmitted := rfl
  have e2 : (updateParticleSystem dt height width segs respect w).maxParticles
      = ((subStep height width respect (dt / 5))^[5]
          { (if respect then { w with maskShapes := segs } else w) with
            vortices := updateVortices (width : ℝ) (height : ℝ) ((dt : ℚ) : ℝ)
              (if respect then { w with maskShapes := segs }
                else w).vortices }).maxParticles := rfl
  have e3 : ({ (if respect then { w with maskShapes := segs } else w) with
      vortices := updateVortices (width : ℝ) (height : ℝ) ((dt : ℚ) : ℝ)
        (if respect then { w with maskShapes := segs }
          else w).vortices } : World).totalParticlesEmitted
      = w.totalParticlesEmitted := hpre.2.1
  have e4 : ({ (if respect then { w with maskShapes := segs } else w) with
      vortices := updateVortices (width : ℝ) (height : ℝ) ((dt : ℚ) : ℝ)
        (if respect then { w with maskShapes := segs }
          else w).vortices } : World).maxParticles = w.maxParticles := hpre.2.2.1
  refine ⟨?_, ?_, ?_⟩
  · rw [e1]
    have := hiter.1
    rw [e3] at this
    exact this
  · intro hc
    rw [e1]
    have := hiter.2.1 (by rw [e3, e4]; exact hc)
    rw [e4] at this
    exact this
  · rw [e2, hiter.2.2, e4]

theorem runUpdates_total (height width : ℚ) :
    ∀ (us : List (ℚ × List Segment × Bool)) (w : World),
      w.totalParticlesEmitted ≤ (runUpdates height width us w).totalParticlesEmitted ∧
      (w.totalParticlesEmitted ≤ w.maxParticles →
        (runUpdates height width us w).totalParticlesEmitted ≤ w.maxParticles) ∧
      (runUpdates height width us w).maxParticles = w.maxParticles := by
  intro us
  induction us with
  | nil => intro w; exact ⟨le_rfl, fun hc => hc, rfl⟩
  | cons u rest ih =>
      intro w
      have hcons : runUpdates height width (u :: rest) w
          = runUpdates height width rest
              (updateParticleSystem u.1 height width u.2.1 u.2.2 w) := rfl
      rw [hcons]
      have hu := updateParticleSystem_total_spec u.1 height width u.2.1 u.2.2 w
      have hr := ih (updateParticleSystem u.1 height width u.2.1 u.2.2 w)
      refine ⟨le_trans hu.1 hr.1, ?_, by rw [hr.2.2, hu.2.2]⟩
      intro hc
      have h1 := hu.2.1 hc
      have h2 := hr.2.1 (by rw [hu.2.2]; exact h1)
      rw [hu.2.2] at h2
      exact h2

theorem runUpdates_zero (height width : ℚ) :
    ∀ (us : List (ℚ × List Segment × Bool)) (w : World),
      w.maxParticles = 0 → w.totalParticlesEmitted = 0 → w.particles = [] →
      (runUpdates height width us w).totalParticlesEmitted = 0 ∧
      (runUpdates height width us w).particles = [] := by
  intro us
  induction us with
  | nil => intro w _ ht hp; exact ⟨ht, hp⟩
  | cons u rest ih =>
      intro w hm ht hp
      have hcons : runUpdates height width (u :: rest) w
          = runUpdates height width rest
              (updateParticleSystem u.1 height width u.2.1 u.2.2 w) := rfl
      rw [hcons]
      have hu := updateParticleSystem_zero u.1 height width u.2.1 u.2.2 w hm ht hp
      exact ih _ hu.1 hu.2.1 hu.2.2

/-- Claim C2: with every emitter's initial-burst fraction in [0, 1]
(the spec calls it a fraction), the total number of particles ever
created — the initial plumes at setup plus all per-sub-step emissions —
never exceeds the configured maximum over any sequence of frame
updates; the total-created counter never decreases across a frame
update; and with maximum particle count 0, zero particles are spawned
across the entire run (the live collection stays empty) regardless of
emission rates. -/
theorem C2_emission_cap (width height : ℚ) (ems : List Emitter) (pc : ℕ) (lt : ℚ)
    (wind grav : ℝ) (vor : List Vortex) (wel : List Well) (mult : ℝ) (rng : ℕ → ℝ)
    (hplume : ∀ em ∈ ems, 0 ≤ em.initialPlume ∧ em.initialPlume ≤ 1) :
    (setupParticleSystem width height ems pc lt wind grav vor wel mult
        rng).totalParticlesEmitted ≤ pc ∧
    (∀ us, (runUpdates height width us (setupParticleSystem width height ems pc lt
        wind grav vor wel mult rng)).totalParticlesEmitted ≤ pc) ∧
    (∀ (dt : ℚ) (segs : List Segment) (respect : Bool) (w : World),
        w.totalParticlesEmitted
          ≤ (updateParticleSystem dt height width segs respect
              w).totalParticlesEmitted) ∧
    (pc = 0 → ∀ us,
        (runUpdates height width us (setupParticleSystem width height ems pc lt wind
          grav vor wel mult rng)).totalParticlesEmitted = 0 ∧
        (runUpdates height width us (setupParticleSystem width height ems pc lt wind
          grav vor wel mult rng)).particles = []) := by
  have hle := setup_total_le width height ems pc lt wind grav vor wel mult rng hplume
  have hmax := setup_max width height ems pc lt wind grav vor wel mult rng
  refine ⟨hle, ?_, ?_, ?_⟩
  · intro us
    have h := runUpdates_total height width us
      (setupParticleSystem width height ems pc lt wind grav vor wel mult rng)
    have h2 := h.2.1 (by rw [hmax]; exact hle)
    rw [hmax] at h2
    exact h2
  · intro dt segs respect w
    exact (updateParticleSystem_total_spec dt height width segs respect w).1
  · intro hpc us
    subst hpc
    have hz := setup_zero width height ems lt wind grav vor wel mult rng
    exact runUpdates_zero height width us _ hz.1 hz.2.1 hz.2.2

/-- Witness for C2_emission_cap: one emitter with initial-burst
fraction 1/2 and cap 10, run for two frames. -/
theorem C2_emission_cap_witness :
    (setupParticleSystem 100 100 [em0] 10 1 0 0 [] [] 1
        (fun _ => 0)).totalParticlesEmitted ≤ 10 ∧
    (runUpdates 100 100 [((1/30 : ℚ), [], false), ((1/30 : ℚ), [], false)]
        (setupParticleSystem 100 100 [em0] 10 1 0 0 [] [] 1
          (fun _ => 0))).totalParticlesEmitted ≤ 10 := by
  have h := C2_emission_cap 100 100 [em0] 10 1 0 0 [] [] 1 (fun _ => 0)
    (by intro em hm; rw [List.mem_singleton] at hm; subst hm; norm_num [em0])
  exact ⟨h.1, h.2.1 [((1/30 : ℚ), [], false), ((1/30 : ℚ), [], false)]⟩

/-! Claim C9: out-of-range frames pass through. -/

/-- Claim C9: for a frame index before start_frame or at/after the
effective end frame (end_frame when positive, else the frame count),
the per-frame loop of process_mask appends the input mask unchanged,
appends the three-channel duplicate of that mask as the image, and
hands the world on to the next frame completely unmutated (no clock
advance, no emission, no movement, no counter change) — visible in the
equation as the continuation running on the same w. -/
theorem C9_out_of_range_passthrough {M : Type} (startFrame endFrame numFrames : ℕ)
    (respect : Bool) (height width : ℚ) (extract : M → List Segment)
    (psm : World → M → ℕ → M × (M × M × M)) (i : ℕ) (m : M) (ms : List M) (w : World)
    (hout : i < startFrame ∨ effectiveEnd endFrame numFrames ≤ i) :
    processFrames startFrame (effectiveEnd endFrame numFrames) respect height width
        extract psm i (m :: ms) w
      = (m :: (processFrames startFrame (effectiveEnd endFrame numFrames) respect
            height width extract psm (i + 1) ms w).1,
         stack3 m :: (processFrames startFrame (effectiveEnd endFrame numFrames)
            respect height width extract psm (i + 1) ms w).2.1,
         (processFrames startFrame (effectiveEnd endFrame numFrames) respect height
            width extract psm (i + 1) ms w).2.2) := by
  simp only [processFrames]
  rw [if_pos hout]

/-- Witness for C9_out_of_range_passthrough: one frame before
start_frame 2 passes its mask (5) through with a stacked image and the
untouched demo world. -/
theorem C9_out_of_range_passthrough_witness :
    processFrames 2 (effectiveEnd 0 1) false 100 100 (fun _ => ([] : List Segment))
        (fun _ m _ => (m, stack3 m)) 0 [(5 : ℕ)] worldDemo
      = ([5], [stack3 5], worldDemo) := by
  rw [C9_out_of_range_passthrough 2 0 1 false 100 100 (fun _ => [])
    (fun _ m _ => (m, stack3 m)) 0 5 [] worldDemo (Or.inl (by norm_num))]
  rfl

end ParticleSim
